import Mathlib

/-!
Verification of the `cfmessias/geografia` ETL / data-access layer.

This file shallowly embeds the routines of
`scripts/fetch_migration_inout.py`, `services/io_csv.py` and
`services/offline_store.py` that the frozen claims C1..C10 are about, and
proves or refutes each claim.

Modelling conventions
* Python strings and pandas cells are modelled as `Cell := List Nat`, a list
  of Unicode code points.  `str.upper` / `str.lower` are modelled on the
  ASCII range (the data handled by the repository is ASCII country codes and
  Latin names).
* pandas dataframes of unknown shape are `Frame` (a header of column-name
  cells plus rows of cells); dataframes whose shape is fixed by the pipeline
  are modelled as lists of typed records.
* `pd.to_numeric(errors="coerce")` on text cells is modelled by
  `parseIntOpt` (optional sign + decimal digits, surrounding whitespace
  stripped, anything else coerces to `none`/NaN).  Integer-valued numeric
  data is modelled as `Int`; NaN-able columns as `Option Int`.
* `pd.read_csv` on decoded text is modelled by `parseCsvText`: split lines
  on `\n`, split fields on the separator, succeed iff at least one line is
  present and all data rows have exactly the header's field count (the
  python engine raises on rows with extra fields; quoting, dtype inference
  and NaN tokens are not modelled — the claims under study never depend on
  them).  `pd.read_csv(..., encoding=enc)` first decodes the raw bytes with
  `enc` (failure = `UnicodeDecodeError` = the `except` branch).
* The byte codecs utf-8, utf-8-sig, utf-16 (le and be), cp1252 and latin-1 are
  implemented for real at the byte level (strict decoders, like Python's).
* zip-archive opening (`zipfile.ZipFile`) is an external library and is
  passed as an oracle `zipOpen : List Nat → Option (List ZEntry)`;
  `none` models `zipfile.BadZipFile`.
-/

/-! ## Text model -/

/-- A Python string / pandas cell: a list of Unicode code points. -/
abbrev Cell := List Nat

/-- ASCII-range `str.upper` on a single code point. -/
def asciiUpper (c : Nat) : Nat := if 97 ≤ c ∧ c ≤ 122 then c - 32 else c

/-- ASCII-range `str.lower` on a single code point. -/
def asciiLower (c : Nat) : Nat := if 65 ≤ c ∧ c ≤ 90 then c + 32 else c

/-- `str.upper` on a cell. -/
def upperCell (s : Cell) : Cell := s.map asciiUpper

/-- `str.lower` on a cell. -/
def lowerCell (s : Cell) : Cell := s.map asciiLower

/-- Characters stripped by Python's `str.strip()` / `bytes.strip()`. -/
def isStripChar (c : Nat) : Bool := c = 32 || c = 9 || c = 10 || c = 13 || c = 11 || c = 12

/-- `str.strip()` on a cell. -/
def trimCell (s : Cell) : Cell :=
  ((s.dropWhile isStripChar).reverse.dropWhile isStripChar).reverse

/-- Convert a Lean string literal to a `Cell` (used only to write concrete
test data and constants readably). -/
def str2cell (s : String) : Cell := s.data.map (fun c => c.toNat)

/-- Decimal digits accumulator: `some` iff every character is a digit. -/
def digitsAux (acc : Nat) : List Nat → Option Nat
  | [] => some acc
  | d :: ds => if 48 ≤ d ∧ d ≤ 57 then digitsAux (acc * 10 + (d - 48)) ds else none

/-- `pd.to_numeric(errors="coerce")` on an integer-literal text cell:
optional `-` sign and decimal digits, whitespace stripped; anything else
coerces to NaN (`none`). -/
def parseIntOpt (s : Cell) : Option Int :=
  match trimCell s with
  | [] => none
  | 45 :: d :: ds => (digitsAux 0 (d :: ds)).map (fun n => -(n : Int))
  | l => (digitsAux 0 l).map (fun n => (n : Int))

/-- Decidable equality for `Except` results (needed to evaluate the
container reader on concrete inputs). -/
instance {e a : Type} [DecidableEq e] [DecidableEq a] : DecidableEq (Except e a) := fun x y =>
  match x, y with
  | .ok v, .ok w =>
    if h : v = w then isTrue (by rw [h]) else isFalse (by intro he; cases he; exact h rfl)
  | .error v, .error w =>
    if h : v = w then isTrue (by rw [h]) else isFalse (by intro he; cases he; exact h rfl)
  | .ok _, .error _ => isFalse (by intro h; cases h)
  | .error _, .ok _ => isFalse (by intro h; cases h)

/-! ## Generic list helpers -/

/-- Fuel-driven chunking; `chunksOf` instantiates the fuel with the list
length, so the fuel never runs out.  Models `pd.read_csv(..., chunksize=n)`. -/
def chunksOfAux (n : Nat) : Nat → List α → List (List α)
  | _, [] => []
  | 0, l => [l]
  | fuel + 1, x :: xs =>
    if n = 0 then [x :: xs]
    else (x :: xs).take n :: chunksOfAux n fuel ((x :: xs).drop n)

/-- Split a list into chunks of `n` elements (last chunk may be shorter). -/
def chunksOf (n : Nat) (l : List α) : List (List α) := chunksOfAux n l.length l

/-- Keep the first occurrence of each element (`drop_duplicates()` /
`dict()` construction where the earlier row wins because duplicates were
dropped first). -/
def dedupAux [DecidableEq α] (seen : List α) : List α → List α
  | [] => []
  | x :: xs => if x ∈ seen then dedupAux seen xs else x :: dedupAux (x :: seen) xs

/-- `drop_duplicates(keep="first")`. -/
def dedupKeepFirst [DecidableEq α] (l : List α) : List α := dedupAux [] l

/-- `drop_duplicates(subset=[k], keep="last")`: keep an element iff no later
element has the same key, preserving the order of the kept elements. -/
def dropDupLastBy [DecidableEq β] (k : α → β) : List α → List α
  | [] => []
  | x :: xs =>
    if xs.any (fun y => k y == k x) then dropDupLastBy k xs else x :: dropDupLastBy k xs

/-- `sort_values` key order: compare the images under `k`. -/
def keyLe {β : Type} [LE β] (k : α → β) (a b : α) : Prop := k a ≤ k b

instance {β : Type} [LinearOrder β] (k : α → β) : DecidableRel (keyLe k) :=
  fun a b => inferInstanceAs (Decidable (k a ≤ k b))

instance {β : Type} [LinearOrder β] (k : α → β) : IsTotal α (keyLe k) :=
  ⟨fun a b => le_total (k a) (k b)⟩

instance {β : Type} [LinearOrder β] (k : α → β) : IsTrans α (keyLe k) :=
  ⟨fun _ _ _ h1 h2 => le_trans h1 h2⟩

/-- `df.sort_values(by=key)` (pandas' default quicksort is unstable, so only
order w.r.t. the key and multiset contents are meaningful; we sort with
insertion sort). -/
def sortByKey {β : Type} [LinearOrder β] (k : α → β) (l : List α) : List α :=
  List.insertionSort (keyLe k) l

/-- Sort key for a nullable numeric column: NaN (`none`) sorts last
(`na_position="last"`). -/
def optIntKey (y : Option Int) : Lex (Int × Int) :=
  match y with
  | none => toLex (1, 0)
  | some v => toLex (0, v)

/-! ## C1 — UN DESA wide→long reshape (`_extract_inout_from_xlsx`) -/

/-- One data row of the UN DESA "Destination and origin" Table 1 (after
`pd.read_excel` located the header row): the two M49 location codes, the two
region/country name columns, and one value per year column. -/
structure WRow where
  ocode : Int
  dcode : Int
  oname : Cell
  dname : Cell
  vals : List Int
deriving DecidableEq

/-- The wide UN DESA table: the integer year columns (pandas keeps them as
`int` column labels) and the data rows, each row's `vals` aligned with
`yearCols`. -/
structure WideTable where
  yearCols : List Int
  rows : List WRow
deriving DecidableEq

/-- A record of one of the two `melt` outputs (`immigrants` or `emigrants`
before the merge): id columns `m49`/`country` plus the melted year/value. -/
structure MeltRec where
  m49 : Int
  country : Cell
  year : Int
  value : Int
deriving DecidableEq

/-- A row of the reshaped long table `m49/country/year/immigrants/emigrants`
(`None` = NaN produced by the outer merge). -/
structure InoutRec where
  m49 : Int
  country : Cell
  year : Int
  immigrants : Option Int
  emigrants : Option Int
deriving DecidableEq

/-- The `imm` melt of `_extract_inout_from_xlsx`
(fetch_migration_inout.py:298-306): rows whose origin code is the World
aggregate 900, destination code renamed to `m49`, destination name to
`country`, year columns melted variable-major. -/
def melt_immigrants (t : WideTable) : List MeltRec :=
  t.yearCols.enum.flatMap fun p =>
    (t.rows.filter fun r => r.ocode == 900).map fun r =>
      { m49 := r.dcode, country := r.dname, year := p.2, value := (r.vals.get? p.1).getD 0 }

/-- The `emi` melt of `_extract_inout_from_xlsx`
(fetch_migration_inout.py:309-317): rows whose destination code is 900,
origin code renamed to `m49`, origin name to `country`. -/
def melt_emigrants (t : WideTable) : List MeltRec :=
  t.yearCols.enum.flatMap fun p =>
    (t.rows.filter fun r => r.dcode == 900).map fun r =>
      { m49 := r.ocode, country := r.oname, year := p.2, value := (r.vals.get? p.1).getD 0 }

/-- `pd.merge(imm, emi, on=["m49","country","year"], how="outer")`: matched
key pairs are joined (duplicate keys produce the cross product), unmatched
left rows get NaN `emigrants`, unmatched right rows get NaN `immigrants` and
are appended after the left block. -/
def outer_merge_inout (imm emi : List MeltRec) : List InoutRec :=
  (imm.flatMap fun l =>
    let ms := emi.filter fun r => r.m49 == l.m49 && r.country == l.country && r.year == l.year
    if ms.isEmpty then [⟨l.m49, l.country, l.year, some l.value, none⟩]
    else ms.map fun r => ⟨l.m49, l.country, l.year, some l.value, some r.value⟩) ++
  ((emi.filter fun r =>
      !(imm.any fun l => l.m49 == r.m49 && l.country == r.country && l.year == r.year)).map
    fun r => ⟨r.m49, r.country, r.year, none, some r.value⟩)

/-- `_extract_inout_from_xlsx` (fetch_migration_inout.py:260-324), from the
already-located wide table onward: melt twice, outer-merge on
`(m49, country, year)` and `sort_values(["m49","year"])`.  The numeric
re-coercions on lines 320-323 are identities on the already-numeric data. -/
def extract_inout_from_xlsx (t : WideTable) : List InoutRec :=
  sortByKey (fun rec => toLex (rec.m49, rec.year))
    (outer_merge_inout (melt_immigrants t) (melt_emigrants t))

/-! ## C2 — M49 → ISO3 mapping (`_load_un_official_map` and `main`) -/

/-- One row of the `un_m49_iso.csv` mapping file, reduced to the two columns
`_pick_col` selects (the M49-code column and the alpha-3 column). -/
structure MapRow where
  m49cell : Cell
  iso3cell : Cell
deriving DecidableEq

/-- `drop_duplicates(subset=[k], keep="first")`: keep an element iff no
earlier element has the same key. -/
def dedupKeepFirstByAux [DecidableEq β] (k : α → β) (seen : List β) : List α → List α
  | [] => []
  | x :: xs =>
    if k x ∈ seen then dedupKeepFirstByAux k seen xs
    else x :: dedupKeepFirstByAux k (k x :: seen) xs

/-- `drop_duplicates(subset=[k])` with the default `keep="first"`. -/
def dedupKeepFirstBy [DecidableEq β] (k : α → β) (l : List α) : List α :=
  dedupKeepFirstByAux k [] l

/-- `_load_un_official_map` (fetch_migration_inout.py:341-358), after the
column picking: `to_numeric(errors="coerce")` on the M49 column,
`astype(str).str.upper().str.strip()` on the alpha-3 column, drop rows whose
M49 failed to parse, `drop_duplicates(subset=[m49])` (keep first) and build
the dict.  Represented as an association list whose first hit wins. -/
def load_un_official_map (rows : List MapRow) : List (Int × Cell) :=
  dedupKeepFirstBy (fun p => p.1)
    (rows.filterMap fun r =>
      (parseIntOpt r.m49cell).map fun m => (m, trimCell (upperCell r.iso3cell)))

/-- Association-list lookup modelling the Python `dict` built by
`_load_un_official_map` (first entry with the key wins, matching
`drop_duplicates(keep="first")` before `dict(...)`). -/
def mapLookup (m : List (Int × Cell)) (k : Int) : Option Cell :=
  (m.find? fun p => p.1 == k).map (fun p => p.2)

/-- A row of the extracted M49-keyed long migration table handed to the
mapping step of `main` (`df: [m49,country,year,immigrants,emigrants]`,
fetch_migration_inout.py:436).  `m49` is nullable `Int64`; `year` has
already been cast to `int` by the extraction. -/
structure MigRow where
  m49 : Option Int
  country : Cell
  year : Int
  immigrants : Option Int
  emigrants : Option Int
deriving DecidableEq

/-- A row of the ISO3-keyed output table `migration_inout.csv`. -/
structure IsoRow where
  iso3 : Cell
  year : Int
  immigrants : Option Int
  emigrants : Option Int
deriving DecidableEq

/-- The ISO3 mapping step of `main` (fetch_migration_inout.py:436-448):
`merged["iso3"] = merged["m49"].map(m49_to_iso3)`, drop rows whose lookup
failed, keep `[iso3,year,immigrants,emigrants]`, re-normalize `iso3` with
`str.upper().str.strip()`, re-coerce `year` (an identity here — the
extraction already produced integer years, so `dropna(subset=["year"])`
drops nothing) and `sort_values(["iso3","year"])`. -/
def map_to_iso3_output (df : List MigRow) (m : List (Int × Cell)) : List IsoRow :=
  sortByKey (fun r => toLex (r.iso3, r.year))
    (df.filterMap fun r =>
      (r.m49.bind (mapLookup m)).map fun iso =>
        { iso3 := trimCell (upperCell iso), year := r.year,
          immigrants := r.immigrants, emigrants := r.emigrants })

/-- `faltas` (fetch_migration_inout.py:453): the `(m49, country)` pairs of
the rows whose lookup failed, `drop_duplicates()` (keep first). -/
def unmapped_pairs (df : List MigRow) (m : List (Int × Cell)) : List (Option Int × Cell) :=
  dedupKeepFirst
    ((df.filter fun r => (r.m49.bind (mapLookup m)).isNone).map fun r => (r.m49, r.country))

/-- The pairs actually printed to the log (fetch_migration_inout.py:455-456):
`faltas.head(10)` — only the first ten distinct unmapped pairs are listed
(the log line before it prints the total count). -/
def logged_pairs (df : List MigRow) (m : List (Int × Cell)) : List (Option Int × Cell) :=
  (unmapped_pairs df m).take 10

/-! ## C3 / C8 / C9 — `read_csv_filtered` (`services/io_csv.py:56-74`) -/

/-- A pandas dataframe of unknown shape: column-name cells plus rows of
cells (rectangularity is not assumed; missing positions read as the empty
cell). -/
structure Frame where
  header : List Cell
  rows : List (List Cell)
deriving DecidableEq

/-- `pd.read_csv(..., usecols=cs)`: select the listed columns, in file
order.  With `usecols=None` the frame is unchanged. -/
def applyUsecols (u : Option (List Cell)) (f : Frame) : Frame :=
  match u with
  | none => f
  | some cs =>
    let idxs := (f.header.enum.filter fun p => cs.contains p.2).map fun p => p.1
    { header := idxs.filterMap fun i => f.header.get? i,
      rows := f.rows.map fun row => idxs.filterMap fun i => row.get? i }

/-- `read_csv_filtered` (io_csv.py:56-74), body only (the `lru_cache`
wrapper is modelled separately as `read_csv_filtered_lru`): a missing file
gives an empty frame with the requested columns; otherwise the file is read
in `chunksize` chunks, chunks lacking the ISO3 column are skipped, each
chunk's ISO3 column is upper-cased and compared against the upper-cased
argument, matching rows are concatenated, and if nothing matched an empty
frame with the requested columns is returned. -/
def read_csv_filtered (file : Option Frame) (iso3 : Cell) (col_iso3 : Cell)
    (usecols : Option (List Cell)) (chunksize : Nat) : Frame :=
  match file with
  | none => { header := usecols.getD [], rows := [] }
  | some f =>
    let f' := applyUsecols usecols f
    let target := upperCell iso3
    let kept := (chunksOf chunksize f'.rows).flatMap fun ch =>
      match f'.header.indexOf? col_iso3 with
      | none => []
      | some i => ch.filter fun row => upperCell (row.getD i []) == target
    if kept.isEmpty then { header := usecols.getD [], rows := [] }
    else { header := f'.header, rows := kept }

/-- A Python argument value, as far as `functools.lru_cache` cares: only
whether it is hashable, plus the payload the body would use.  Lists and
dicts are unhashable. -/
inductive PyVal where
  | pyNone : PyVal
  | pyStr : Cell → PyVal
  | pyTuple : List Cell → PyVal
  | pyList : List Cell → PyVal
  | pyDict : List (Cell × Cell) → PyVal
deriving DecidableEq

/-- Hashability of a Python argument (`functools.lru_cache` hashes the whole
argument tuple before the wrapped function runs; `list` and `dict` raise
`TypeError: unhashable type`). -/
def pyHashable : PyVal → Bool
  | .pyList _ => false
  | .pyDict _ => false
  | _ => true

/-- The Python error outcomes the embedding distinguishes. -/
inductive PyErr where
  | typeError : PyErr
deriving DecidableEq

/-- Interpretation of the `iso3` argument by the body (`str(iso3)`). -/
def pyAsCell : PyVal → Cell
  | .pyStr s => s
  | _ => []

/-- Interpretation of the `usecols` argument by the body (`None` or a
sequence of column names). -/
def pyAsCols : PyVal → Option (List Cell)
  | .pyTuple l => some l
  | .pyList l => some l
  | _ => none

/-- `read_csv_filtered` as actually exposed: the `@lru_cache(maxsize=256)`
wrapper (io_csv.py:56) hashes the argument tuple
`(path_str, iso3, col_iso3, usecols, dtype, sep, sig)` before the body can
touch the file; an unhashable argument raises `TypeError` and the body (and
any file access) never runs.  Modelled from the documented behaviour of
`functools.lru_cache`; `file` stands for the file the path points at and is
only consulted by the body. -/
def read_csv_filtered_lru (file : Option Frame)
    (path_str iso3 col_iso3 usecols dtype sep sig : PyVal) : Except PyErr Frame :=
  if [path_str, iso3, col_iso3, usecols, dtype, sep, sig].all pyHashable then
    .ok (read_csv_filtered file (pyAsCell iso3) (pyAsCell col_iso3) (pyAsCols usecols) 200000)
  else
    .error .typeError

/-! ## Byte codecs (for C4 / C5 / C10) -/

/-- A Unicode scalar value (what a Python `str` character is): in range and
not a surrogate. -/
def validScalar (c : Nat) : Prop := c < 0x110000 ∧ ¬(0xD800 ≤ c ∧ c < 0xE000)

instance (c : Nat) : Decidable (validScalar c) := by unfold validScalar; infer_instance

/-- UTF-8 encoding of one scalar. -/
def utf8EncodeChar (c : Nat) : List Nat :=
  if c < 0x80 then [c]
  else if c < 0x800 then [0xC0 + c / 64, 0x80 + c % 64]
  else if c < 0x10000 then [0xE0 + c / 4096, 0x80 + c / 64 % 64, 0x80 + c % 64]
  else [0xF0 + c / 262144, 0x80 + c / 4096 % 64, 0x80 + c / 64 % 64, 0x80 + c % 64]

/-- UTF-8 encoding of a text. -/
def utf8Encode (s : List Nat) : List Nat := s.flatMap utf8EncodeChar

/-- Strict UTF-8 decoder (fuel-driven; the fuel is instantiated with the
byte count, and every step consumes at least one byte).  Rejects stray
continuation bytes, overlong forms, surrogates and out-of-range scalars,
like Python's strict `bytes.decode("utf-8")`. -/
def utf8DecodeAux : Nat → List Nat → Option (List Nat)
  | _, [] => some []
  | 0, _ :: _ => none
  | fuel + 1, b :: bs =>
    if b < 0x80 then (utf8DecodeAux fuel bs).map (b :: ·)
    else if b < 0xC2 then none
    else if b < 0xE0 then
      match bs with
      | b1 :: bs1 =>
        if 0x80 ≤ b1 ∧ b1 < 0xC0 then
          (utf8DecodeAux fuel bs1).map (((b - 0xC0) * 64 + (b1 - 0x80)) :: ·)
        else none
      | [] => none
    else if b < 0xF0 then
      match bs with
      | b1 :: b2 :: bs2 =>
        if (0x80 ≤ b1 ∧ b1 < 0xC0) ∧ (0x80 ≤ b2 ∧ b2 < 0xC0) then
          let c := (b - 0xE0) * 4096 + (b1 - 0x80) * 64 + (b2 - 0x80)
          if c < 0x800 ∨ (0xD800 ≤ c ∧ c < 0xE000) then none
          else (utf8DecodeAux fuel bs2).map (c :: ·)
        else none
      | _ => none
    else if b < 0xF5 then
      match bs with
      | b1 :: b2 :: b3 :: bs3 =>
        if (0x80 ≤ b1 ∧ b1 < 0xC0) ∧ (0x80 ≤ b2 ∧ b2 < 0xC0) ∧ (0x80 ≤ b3 ∧ b3 < 0xC0) then
          let c := (b - 0xF0) * 262144 + (b1 - 0x80) * 4096 + (b2 - 0x80) * 64 + (b3 - 0x80)
          if c < 0x10000 ∨ 0x110000 ≤ c then none
          else (utf8DecodeAux fuel bs3).map (c :: ·)
        else none
      | _ => none
    else none

/-- `bytes.decode("utf-8")`, strict. -/
def utf8Decode (raw : List Nat) : Option (List Nat) := utf8DecodeAux raw.length raw

/-- `bytes.decode("utf-8-sig")`: strip a leading UTF-8 BOM, then decode. -/
def utf8sigDecode (raw : List Nat) : Option (List Nat) :=
  utf8Decode (if raw.take 3 == [0xEF, 0xBB, 0xBF] then raw.drop 3 else raw)

/-- Python's `str.encode("utf-8-sig")`: BOM plus UTF-8. -/
def utf8sigEncode (s : List Nat) : List Nat := [0xEF, 0xBB, 0xBF] ++ utf8Encode s

/-- UTF-16 code units for one scalar (surrogate pair above the BMP). -/
def utf16EncodeUnits (c : Nat) : List Nat :=
  if c < 0x10000 then [c]
  else [0xD800 + (c - 0x10000) / 1024, 0xDC00 + (c - 0x10000) % 1024]

/-- Little-endian bytes of one UTF-16 code unit. -/
def utf16leUnitBytes (u : Nat) : List Nat := [u % 256, u / 256]

/-- Big-endian bytes of one UTF-16 code unit. -/
def utf16beUnitBytes (u : Nat) : List Nat := [u / 256, u % 256]

/-- Python's `str.encode("utf-16")`: BOM `FF FE` plus little-endian units. -/
def utf16Encode (s : List Nat) : List Nat :=
  [0xFF, 0xFE] ++ (s.flatMap utf16EncodeUnits).flatMap utf16leUnitBytes

/-- Group little-endian byte pairs into UTF-16 code units (odd byte counts
are a decode error). -/
def utf16leToUnits : List Nat → Option (List Nat)
  | [] => some []
  | [_] => none
  | lo :: hi :: rest => (utf16leToUnits rest).map ((lo + 256 * hi) :: ·)

/-- Group big-endian byte pairs into UTF-16 code units. -/
def utf16beToUnits : List Nat → Option (List Nat)
  | [] => some []
  | [_] => none
  | hi :: lo :: rest => (utf16beToUnits rest).map ((lo + 256 * hi) :: ·)

/-- Combine UTF-16 code units into scalars (strict surrogate handling). -/
def utf16UnitsDecode : Nat → List Nat → Option (List Nat)
  | _, [] => some []
  | 0, _ :: _ => none
  | fuel + 1, u :: us =>
    if u < 0xD800 ∨ 0xE000 ≤ u then (utf16UnitsDecode fuel us).map (u :: ·)
    else if u < 0xDC00 then
      match us with
      | u2 :: us2 =>
        if 0xDC00 ≤ u2 ∧ u2 < 0xE000 then
          (utf16UnitsDecode fuel us2).map ((0x10000 + (u - 0xD800) * 1024 + (u2 - 0xDC00)) :: ·)
        else none
      | [] => none
    else none

/-- `bytes.decode("utf-16-le")`. -/
def utf16leDecode (raw : List Nat) : Option (List Nat) :=
  (utf16leToUnits raw).bind fun us => utf16UnitsDecode us.length us

/-- `bytes.decode("utf-16-be")`. -/
def utf16beDecode (raw : List Nat) : Option (List Nat) :=
  (utf16beToUnits raw).bind fun us => utf16UnitsDecode us.length us

/-- `bytes.decode("utf-16")`: honour a BOM, default to little-endian. -/
def utf16Decode (raw : List Nat) : Option (List Nat) :=
  if raw.take 2 == [0xFF, 0xFE] then utf16leDecode (raw.drop 2)
  else if raw.take 2 == [0xFE, 0xFF] then utf16beDecode (raw.drop 2)
  else utf16leDecode raw

/-- The cp1252 mapping for the `0x80`-`0x9F` block (five bytes are
undefined and raise in strict mode); all other bytes map to themselves. -/
def cp1252DecodeByte (b : Nat) : Option Nat :=
  if b = 0x80 then some 0x20AC else if b = 0x81 then none
  else if b = 0x82 then some 0x201A else if b = 0x83 then some 0x0192
  else if b = 0x84 then some 0x201E else if b = 0x85 then some 0x2026
  else if b = 0x86 then some 0x2020 else if b = 0x87 then some 0x2021
  else if b = 0x88 then some 0x02C6 else if b = 0x89 then some 0x2030
  else if b = 0x8A then some 0x0160 else if b = 0x8B then some 0x2039
  else if b = 0x8C then some 0x0152 else if b = 0x8D then none
  else if b = 0x8E then some 0x017D else if b = 0x8F then none
  else if b = 0x90 then none else if b = 0x91 then some 0x2018
  else if b = 0x92 then some 0x2019 else if b = 0x93 then some 0x201C
  else if b = 0x94 then some 0x201D else if b = 0x95 then some 0x2022
  else if b = 0x96 then some 0x2013 else if b = 0x97 then some 0x2014
  else if b = 0x98 then some 0x02DC else if b = 0x99 then some 0x2122
  else if b = 0x9A then some 0x0161 else if b = 0x9B then some 0x203A
  else if b = 0x9C then some 0x0153 else if b = 0x9D then none
  else if b = 0x9E then some 0x017E else if b = 0x9F then some 0x0178
  else some b

/-- `bytes.decode("cp1252")`, strict. -/
def cp1252Decode : List Nat → Option (List Nat)
  | [] => some []
  | b :: bs =>
    match cp1252DecodeByte b, cp1252Decode bs with
    | some c, some cs => some (c :: cs)
    | _, _ => none

/-- `bytes.decode("latin1")`: every byte maps to the same code point and
never fails. -/
def latin1Decode (raw : List Nat) : Option (List Nat) := some raw

/-- The encodings `_read_csv_safe_any` can hand to `pd.read_csv`. -/
inductive PyEnc where
  | utf16 | utf16le | utf16be | utf8sig | utf8 | cp1252 | latin1
deriving DecidableEq

/-- Dispatch a decode through the named codec. -/
def pyDecode : PyEnc → List Nat → Option (List Nat)
  | .utf16 => utf16Decode
  | .utf16le => utf16leDecode
  | .utf16be => utf16beDecode
  | .utf8sig => utf8sigDecode
  | .utf8 => utf8Decode
  | .cp1252 => cp1252Decode
  | .latin1 => latin1Decode

/-! ## CSV text model and the robust readers (C4 / C5) -/

/-- Split a character list on a separator character (`"a,b"` becomes
`["a","b"]`; the empty text is one empty field). -/
def splitOnChar (sep : Nat) : List Nat → List (List Nat)
  | [] => [[]]
  | c :: cs =>
    if c = sep then [] :: splitOnChar sep cs
    else
      match splitOnChar sep cs with
      | [] => [[c]]
      | a :: as => (c :: a) :: as

/-- Join cells with a separator character (the writing side of
`df.to_csv(sep=...)` for cells that need no quoting). -/
def sepJoin (sep : Nat) : List Cell → List Nat
  | [] => []
  | [c] => c
  | c :: cs => c ++ sep :: sepJoin sep cs

/-- `df.to_csv(sep=..., index=False)` for frames whose cells contain neither
the separator, quote characters nor line breaks (pandas would quote those):
one joined line per row, header first, each line `\n`-terminated. -/
def toCsvText (sep : Nat) (f : Frame) : List Nat :=
  (f.header :: f.rows).flatMap fun row => sepJoin sep row ++ [10]

/-- `pd.read_csv(engine="python", sep=sep)` on decoded text: split lines on
`\n` (a trailing final newline contributes no row), split fields on `sep`,
fail (raise) on empty input or on any data row whose field count differs
from the header's.  Quoting, dtype inference and NaN tokens are not
modelled. -/
def parseCsvText (sep : Nat) (text : List Nat) : Option Frame :=
  let lines0 := splitOnChar 10 text
  let lines := if lines0.getLast? = some [] then lines0.dropLast else lines0
  match lines with
  | [] => none
  | h :: rs =>
    let header := splitOnChar sep h
    let rows := rs.map (splitOnChar sep)
    if rows.all fun r => r.length == header.length then some ⟨header, rows⟩ else none

/-- One `pd.read_csv(io.BytesIO(raw), encoding=enc, sep=sep)` attempt:
decode, then parse; `none` is the raised exception the caller catches. -/
def pdReadCsvBytes (enc : PyEnc) (sep : Nat) (raw : List Nat) : Option Frame :=
  (pyDecode enc raw).bind (parseCsvText sep)

/-- `not raw.strip()`: the byte blob is empty or all ASCII whitespace. -/
def blankBytes (raw : List Nat) : Bool := raw.all isStripChar

/-- The BOM/NUL sniff of `_read_csv_safe_any` (offline_store.py:299): a
UTF-16 BOM in the first two bytes, or a NUL byte in the first 4096 bytes. -/
def bomOrNul (raw : List Nat) : Bool :=
  raw.take 2 == [0xFF, 0xFE] || raw.take 2 == [0xFE, 0xFF] || (raw.take 4096).contains 0

/-- The encoding list `_read_csv_safe_any` builds (offline_store.py:297-301):
the three UTF-16 codecs first when the sniff fires, then
`utf-8-sig`, `utf-8`, `cp1252`, `latin1`. -/
def encsFor (raw : List Nat) : List PyEnc :=
  (if bomOrNul raw then [.utf16, .utf16le, .utf16be] else []) ++
    [.utf8sig, .utf8, .cp1252, .latin1]

/-- The separator list of `_read_csv_safe_any` (offline_store.py:303):
`,`, `;`, tab. -/
def offlineSeps : List Nat := [44, 59, 9]

/-- The nested try-loop `for enc in encs: for sep in seps: try ...`
(offline_store.py:306-310): return the first attempt that does not raise. -/
def tryAttempts (raw : List Nat) : List (PyEnc × Nat) → Option Frame
  | [] => none
  | (e, s) :: rest =>
    match pdReadCsvBytes e s raw with
    | some f => some f
    | none => tryAttempts raw rest

/-- `_read_csv_safe_any` (offline_store.py:287-317) on the bytes of an
existing file: empty/whitespace-only bytes return an empty dataframe;
otherwise the encoding×separator attempts run in order.  `none` means every
attempt raised and the code falls through to its final
`pd.read_csv(sep=None)` sniffing call, which is outside this model. -/
def read_csv_safe_any (raw : List Nat) : Option Frame :=
  if blankBytes raw then some ⟨[], []⟩
  else tryAttempts raw ((encsFor raw).flatMap fun e => offlineSeps.map fun s => (e, s))

/-- The attempt order C4 claims: encodings UTF-8, UTF-8-with-BOM, UTF-16
(the latter only when a BOM or NUL is detected), CP1252, Latin-1, each
against separators `,`, `;`, tab. -/
def claimedAttempts (raw : List Nat) : List (PyEnc × Nat) :=
  (([PyEnc.utf8, PyEnc.utf8sig] ++ (if bomOrNul raw then [PyEnc.utf16] else []) ++
      [PyEnc.cp1252, PyEnc.latin1]).flatMap fun e => offlineSeps.map fun s => (e, s))

/-- The separator list of io_csv.py's readers: `;`, `,`, tab. -/
def ioSeps : List Nat := [59, 44, 9]

/-- The separator try-loop of `read_csv_safe_any` (io_csv.py:39-43) /
`read_csv_safe` (io_csv.py:15-20): no explicit encoding, so `pd.read_csv`
decodes with its default UTF-8. -/
def tryIoSeps (raw : List Nat) : List Nat → Option Frame
  | [] => none
  | s :: rest =>
    match pdReadCsvBytes .utf8 s raw with
    | some f => some f
    | none => tryIoSeps raw rest

/-- `read_csv_safe_any` of io_csv.py:33-47 on the bytes of an existing
file: blank bytes give an empty dataframe; otherwise separators `;`, `,`,
tab are tried with the default UTF-8 decode.  `none` = all attempts raised
and the final `sep=None` sniffing call (outside this model) runs. -/
def io_csv_read_csv_safe_any (raw : List Nat) : Option Frame :=
  if blankBytes raw then some ⟨[], []⟩ else tryIoSeps raw ioSeps

/-- `expected_cols` post-processing of `read_csv_safe` (io_csv.py:26-30):
add any missing expected column (pd.NA modelled as the empty cell) and slice
the frame to exactly the expected columns, in the expected order. -/
def applyExpected (expected : Option (List Cell)) (f : Frame) : Frame :=
  match expected with
  | none => f
  | some cs =>
    { header := cs,
      rows := f.rows.map fun row =>
        cs.map fun c =>
          match f.header.indexOf? c with
          | some i => row.getD i []
          | none => [] }

/-- `read_csv_safe` (io_csv.py:9-31) on the bytes of an existing file:
blank bytes give an empty frame with the expected columns; otherwise the
`;`, `,`, tab attempts run with default UTF-8 decoding and the
expected-column slicing is applied to the first success.  `none` = every
attempt raised and the `sep=None` fallback (outside this model) runs. -/
def read_csv_safe (raw : List Nat) (expected : Option (List Cell)) : Option Frame :=
  if blankBytes raw then some ⟨expected.getD [], []⟩
  else (tryIoSeps raw ioSeps).map (applyExpected expected)

/-- The write encodings C5 quantifies over. -/
inductive WEnc where
  | wutf8 | wutf8sig | wutf16
deriving DecidableEq

/-- `df.to_csv(path, sep=sep, encoding=enc)`: serialize and encode. -/
def writeFrame (enc : WEnc) (sep : Nat) (f : Frame) : List Nat :=
  match enc with
  | .wutf8 => utf8Encode (toCsvText sep f)
  | .wutf8sig => utf8sigEncode (toCsvText sep f)
  | .wutf16 => utf16Encode (toCsvText sep f)

/-! ## C6 — `load_migration_inout_for_iso3` (offline_store.py:879-940) -/

/-- A raw row of `migration_inout.csv` as read (all cells text). -/
structure MigInRaw where
  iso3 : Cell
  year : Cell
  immigrants : Cell
  emigrants : Cell
deriving DecidableEq

/-- A normalized row of the per-ISO3 migration series. -/
structure MigInRow where
  iso3 : Cell
  year : Option Int
  immigrants : Option Int
  emigrants : Option Int
deriving DecidableEq

/-- `load_migration_inout_for_iso3` (offline_store.py:879-940): a missing
file returns the empty frame; otherwise the file is read in chunks,
chunks whose (normalized) header lacks any of
`iso3/year/immigrants/emigrants` are skipped (`cols_ok` — one flag, since
every chunk of one file shares the header), each chunk's `iso3` is
upper-cased and filtered, `year/immigrants/emigrants` are coerced to
numeric, the chunks are concatenated, rows with NaN `year` are dropped, the
frame is sorted by `year` and deduplicated with
`drop_duplicates(subset=["year"], keep="last")`. -/
def load_migration_inout_for_iso3 (file : Option (List MigInRaw)) (cols_ok : Bool)
    (iso3 : Cell) (chunksize : Nat) : List MigInRow :=
  match file with
  | none => []
  | some rows =>
    let iso3u := upperCell iso3
    let frames := (chunksOf chunksize rows).flatMap fun ch =>
      if cols_ok then
        (ch.map fun r =>
          ({ iso3 := upperCell r.iso3, year := parseIntOpt r.year,
             immigrants := parseIntOpt r.immigrants,
             emigrants := parseIntOpt r.emigrants } : MigInRow)).filter
          fun r => r.iso3 == iso3u
      else []
    dropDupLastBy (fun r => r.year)
      (sortByKey (fun r => optIntKey r.year) (frames.filter fun r => r.year.isSome))

/-! ## C7 — per-entity accessors (offline_store.py) -/

/-- A raw row of `wb_timeseries.csv`. -/
structure WbRaw where
  iso3 : Cell
  year : Cell
  pop_total : Cell
  pop_density : Cell
  urban_pct : Cell
deriving DecidableEq

/-- A normalized World Bank time-series row. -/
structure WbRow where
  iso3 : Cell
  year : Option Int
  pop_total : Option Int
  pop_density : Option Int
  urban_pct : Option Int
deriving DecidableEq

/-- `load_worldbank_timeseries` (offline_store.py:120-128): missing file →
empty; else upper-case `iso3` and coerce the numeric columns. -/
def load_worldbank_timeseries (file : Option (List WbRaw)) : List WbRow :=
  (file.getD []).map fun r =>
    { iso3 := upperCell r.iso3, year := parseIntOpt r.year,
      pop_total := parseIntOpt r.pop_total, pop_density := parseIntOpt r.pop_density,
      urban_pct := parseIntOpt r.urban_pct }

/-- `wb_series_for_country` (offline_store.py:130-139): filter on the
upper-cased ISO3, drop NaN years, `sort_values("year")`. -/
def wb_series_for_country (file : Option (List WbRaw)) (iso3 : Cell) : List WbRow :=
  sortByKey (fun r => optIntKey r.year)
    (((load_worldbank_timeseries file).filter fun r => r.iso3 == upperCell iso3).filter
      fun r => r.year.isSome)

/-- A raw row of `unesco_all.csv`. -/
structure UnescoRaw where
  iso3 : Cell
  country : Cell
  site : Cell
  stype : Cell
  year : Cell
  lat : Cell
  lon : Cell
deriving DecidableEq

/-- A normalized UNESCO row. -/
structure UnescoRow where
  iso3 : Cell
  country : Cell
  site : Cell
  stype : Cell
  year : Option Int
  lat : Option Int
  lon : Option Int
deriving DecidableEq

/-- `load_unesco_all` (offline_store.py:181-189): upper-case `iso3`,
coerce `year/lat/lon`. -/
def load_unesco_all (file : Option (List UnescoRaw)) : List UnescoRow :=
  (file.getD []).map fun r =>
    { iso3 := upperCell r.iso3, country := r.country, site := r.site, stype := r.stype,
      year := parseIntOpt r.year, lat := parseIntOpt r.lat, lon := parseIntOpt r.lon }

/-- `unesco_for_iso3` (offline_store.py:191-199): filter on the upper-cased
ISO3 and `sort_values(["year","site"])` (NaN years last). -/
def unesco_for_iso3 (file : Option (List UnescoRaw)) (iso3 : Cell) : List UnescoRow :=
  sortByKey (fun r => toLex (optIntKey r.year, r.site))
    ((load_unesco_all file).filter fun r => r.iso3 == upperCell iso3)

/-- A raw row of `cities_all.csv` (the columns `_cities_for_iso3_cached`
touches). -/
structure CityRaw where
  iso3 : Cell
  city : Cell
  admin : Cell
  is_capital : Cell
  population : Cell
  year : Cell
  lat : Cell
  lon : Cell
deriving DecidableEq

/-- A normalized city row. -/
structure CityRow where
  iso3 : Cell
  city : Cell
  admin : Cell
  is_capital : Cell
  population : Option Int
  year : Option Int
  lat : Option Int
  lon : Option Int
deriving DecidableEq

/-- `cities_for_iso3` / `_cities_for_iso3_cached` (offline_store.py:153-172):
normalize types, upper-case `iso3`, filter on the upper-cased argument and
`reset_index` — the rows keep the file order, no sort is applied. -/
def cities_for_iso3 (rows : List CityRaw) (iso3 : Cell) : List CityRow :=
  (rows.map fun r =>
    ({ iso3 := upperCell r.iso3, city := r.city, admin := r.admin,
       is_capital := r.is_capital, population := parseIntOpt r.population,
       year := parseIntOpt r.year, lat := parseIntOpt r.lat,
       lon := parseIntOpt r.lon } : CityRow)).filter
    fun r => r.iso3 == upperCell iso3

/-- A raw/normalized row of the leaders files (the columns the accessor
touches; only `iso3` is normalized by the loader). -/
structure LeaderRow where
  iso3 : Cell
  country : Cell
  role : Cell
  person : Cell
  start : Cell
  endDate : Cell
deriving DecidableEq

/-- `load_leaders_current` / `load_leaders_history`
(offline_store.py:202-222): missing file → empty, else upper-case `iso3`. -/
def load_leaders (file : Option (List LeaderRow)) : List LeaderRow :=
  (file.getD []).map fun r => { r with iso3 := upperCell r.iso3 }

/-- `leaders_for_iso3` (offline_store.py:224-231): filter both frames on the
upper-cased ISO3 and return them as a pair — no sort is applied. -/
def leaders_for_iso3 (cur hist : Option (List LeaderRow)) (iso3 : Cell) :
    List LeaderRow × List LeaderRow :=
  ((load_leaders cur).filter fun r => r.iso3 == upperCell iso3,
   (load_leaders hist).filter fun r => r.iso3 == upperCell iso3)

/-! ## C10 — `_read_container` (fetch_migration_inout.py:129-161) -/

/-- `s.startswith(pre)` on cells. -/
def cellStartsWith (s pre : Cell) : Bool := s.take pre.length == pre

/-- `s.endswith(suf)` on cells. -/
def cellEndsWith (s suf : Cell) : Bool := s.drop (s.length - suf.length) == suf

/-- A member of a zip archive: its name and its decompressed bytes. -/
structure ZEntry where
  name : Cell
  data : List Nat
deriving DecidableEq

/-- The `"," in head_txt and "\n" in head_txt` sniff on
`blob[:4096].decode("utf-8", errors="ignore")`
(fetch_migration_inout.py:156-157).  Under `errors="ignore"` every ASCII
byte of the head survives decoding as itself and no multi-byte sequence
decodes to an ASCII scalar, so the check is equivalent to looking for the
bytes `0x2C` and `0x0A` in the head. -/
def csvSniff (blob : List Nat) : Bool :=
  (blob.take 4096).contains 44 && (blob.take 4096).contains 10

/-- `_read_container` (fetch_migration_inout.py:129-161).  `zipOpen` is the
`zipfile.ZipFile` oracle (`none` = `BadZipFile`); `.error ()` is the
`RuntimeError("ZIP sem XLSX/CSV utilizável")`.  A zip with an `xl/` entry or
`[Content_Types].xml` is a bare XLSX (return the whole blob); otherwise the
first `.xlsx`/`.xls` member, then the first `.csv` member, is extracted;
otherwise the error is raised.  A non-zip blob is CSV if its head contains a
comma and a newline, else it is treated as XLSX. -/
def read_container (zipOpen : List Nat → Option (List ZEntry)) (blob : List Nat) :
    Except Unit (Option (List Nat) × Option (List Nat)) :=
  match zipOpen blob with
  | some entries =>
    if entries.any (fun e =>
        cellStartsWith e.name (str2cell "xl/") || e.name == str2cell "[Content_Types].xml") then
      .ok (some blob, none)
    else
      match entries.find? (fun e =>
          cellEndsWith (lowerCell e.name) (str2cell ".xlsx") ||
            cellEndsWith (lowerCell e.name) (str2cell ".xls")) with
      | some e => .ok (some e.data, none)
      | none =>
        match entries.find? (fun e => cellEndsWith (lowerCell e.name) (str2cell ".csv")) with
        | some e => .ok (none, some e.data)
        | none => .error ()
  | none =>
    if csvSniff blob then .ok (none, some blob) else .ok (some blob, none)

/-! ## Concrete fixtures used by witnesses and counterexamples -/

/-- The spec's synthetic wide table: one row, origin 900 (World),
destination 250, value 100 under year column 1990. -/
def c1Table : WideTable :=
  { yearCols := [1990],
    rows := [{ ocode := 900, dcode := 250, oname := str2cell "World",
               dname := str2cell "France", vals := [100] }] }

/-- Eleven extracted rows with eleven distinct unmappable `(m49, country)`
pairs (codes 901..911). -/
def c2df : List MigRow :=
  (List.range 11).map fun i =>
    { m49 := some (Int.ofNat (901 + i)), country := [88, 48 + i], year := 1990,
      immigrants := some 1, emigrants := none }

/-- A small ISO3-keyed file with PRT/ESP/FRA rows. -/
def c3file : Frame :=
  ⟨[str2cell "iso3", str2cell "v"],
   [[str2cell "PRT", str2cell "1"], [str2cell "ESP", str2cell "2"],
    [str2cell "FRA", str2cell "3"], [str2cell "ESP", str2cell "4"]]⟩

/-- The bytes of `"a,b\n1,2\n"` preceded by a UTF-8 BOM. -/
def c4bytes : List Nat :=
  [0xEF, 0xBB, 0xBF] ++ str2cell "a,b" ++ [10] ++ str2cell "1,2" ++ [10]

/-- A two-column dataframe (header `a`,`b`; one row `1`,`2`). -/
def c5frame : Frame := ⟨[str2cell "a", str2cell "b"], [[str2cell "1", str2cell "2"]]⟩

/-- Two PRT city rows stored out of order w.r.t. both year and name. -/
def c7rows : List CityRaw :=
  [{ iso3 := str2cell "PRT", city := str2cell "b", admin := [], is_capital := [],
     population := [], year := str2cell "2000", lat := [], lon := [] },
   { iso3 := str2cell "PRT", city := str2cell "a", admin := [], is_capital := [],
     population := [], year := str2cell "1990", lat := [], lon := [] }]

/-- A migration file with a duplicated year for PRT (plus another country). -/
def c6file : List MigInRaw :=
  [⟨str2cell "prt", str2cell "1990", str2cell "5", str2cell "3"⟩,
   ⟨str2cell "PRT", str2cell "1990", str2cell "7", str2cell "4"⟩,
   ⟨str2cell "ESP", str2cell "1990", str2cell "9", str2cell "9"⟩]

/-- Worldbank rows for the C7 witness. -/
def c7wb : List WbRaw :=
  [⟨str2cell "PRT", str2cell "2001", str2cell "3", [], []⟩,
   ⟨str2cell "PRT", str2cell "1999", str2cell "1", [], []⟩]

/-- Unesco rows for the C7 witness. -/
def c7unesco : List UnescoRaw :=
  [⟨str2cell "PRT", str2cell "Portugal", str2cell "b", [], str2cell "1990", [], []⟩,
   ⟨str2cell "PRT", str2cell "Portugal", str2cell "a", [], str2cell "1990", [], []⟩]

/-! ## Helper lemmas -/

theorem flatMap_filter_chunksOfAux (p : α → Bool) :
    ∀ (n fuel : Nat) (l : List α), l.length ≤ fuel →
      ((chunksOfAux n fuel l).flatMap fun c => c.filter p) = l.filter p := by
  intro n fuel
  induction fuel with
  | zero =>
    intro l hl
    match l with
    | [] => simp [chunksOfAux]
  | succ fuel ih =>
    intro l hl
    match l with
    | [] => simp [chunksOfAux]
    | x :: xs =>
      simp only [List.length_cons] at hl
      rw [chunksOfAux]
      split
      · simp
      · rw [List.flatMap_cons,
          ih _ (by simp only [List.length_drop, List.length_cons]; omega)]
        rw [← List.filter_append, List.take_append_drop]

/-- Filtering chunk-by-chunk and concatenating equals filtering the whole
list, whatever the chunk size. -/
theorem flatMap_filter_chunksOf (p : α → Bool) (n : Nat) (l : List α) :
    ((chunksOf n l).flatMap fun c => c.filter p) = l.filter p :=
  flatMap_filter_chunksOfAux p n l.length l le_rfl

theorem sorted_sortByKey {β : Type} [LinearOrder β] (k : α → β) (l : List α) :
    List.Sorted (keyLe k) (sortByKey k l) := List.sorted_insertionSort _ l

theorem mem_sortByKey {β : Type} [LinearOrder β] {k : α → β} {l : List α} {x : α} :
    x ∈ sortByKey k l ↔ x ∈ l := List.mem_insertionSort _

theorem mem_enum_of_get? {l : List α} {j : Nat} {y : α} (h : l.get? j = some y) :
    (j, y) ∈ l.enum := by
  rw [List.get?_eq_getElem?] at h
  exact List.mk_mem_enum_iff_getElem?.mpr h

theorem mem_dropDupLastBy [DecidableEq β] (k : α → β) :
    ∀ l : List α, ∀ x ∈ dropDupLastBy k l, x ∈ l := by
  intro l
  induction l with
  | nil => simp [dropDupLastBy]
  | cons a as ih =>
    intro x hx
    rw [dropDupLastBy] at hx
    split at hx
    · exact List.mem_cons_of_mem _ (ih x hx)
    · rcases List.mem_cons.mp hx with h | h
      · exact h ▸ List.mem_cons_self _ _
      · exact List.mem_cons_of_mem _ (ih x h)

/-- After `drop_duplicates(subset=[k], keep="last")` no two elements share a
key. -/
theorem pairwise_dropDupLastBy [DecidableEq β] (k : α → β) :
    ∀ l : List α, (dropDupLastBy k l).Pairwise fun a b => k a ≠ k b := by
  intro l
  induction l with
  | nil => simp [dropDupLastBy]
  | cons a as ih =>
    rw [dropDupLastBy]
    split
    · exact ih
    · refine List.Pairwise.cons ?_ ih
      intro b hb hkb
      rename_i hnone
      have hb' : b ∈ as := mem_dropDupLastBy k as b hb
      have : as.any (fun y => k y == k a) = true :=
        List.any_eq_true.mpr ⟨b, hb', by simp [hkb]⟩
      simp [this] at hnone

theorem mem_dedupAux [DecidableEq α] :
    ∀ (seen : List α) (l : List α) (x : α), x ∈ l → x ∉ seen → x ∈ dedupAux seen l := by
  intro seen l
  induction l generalizing seen with
  | nil => simp
  | cons a as ih =>
    intro x hx hseen
    rw [dedupAux]
    rcases List.mem_cons.mp hx with h | h
    · subst h
      rw [if_neg hseen]
      exact List.mem_cons_self _ _
    · by_cases ha : a ∈ seen
      · rw [if_pos ha]; exact ih seen x h hseen
      · rw [if_neg ha]
        by_cases hxa : x = a
        · subst hxa; exact List.mem_cons_self _ _
        · exact List.mem_cons_of_mem _
            (ih (a :: seen) x h (by simp [hxa, hseen]))

theorem mem_dedupKeepFirst [DecidableEq α] {l : List α} {x : α} (h : x ∈ l) :
    x ∈ dedupKeepFirst l := mem_dedupAux [] l x h (by simp)


theorem find?_fst_dedupKeepFirstByAux (k : Int) :
    ∀ (seen : List Int) (l : List (Int × Cell)), k ∉ seen →
      (dedupKeepFirstByAux (fun p => p.1) seen l).find? (fun p => p.1 == k) =
        l.find? (fun p => p.1 == k) := by
  intro seen l
  induction l generalizing seen with
  | nil => simp [dedupKeepFirstByAux]
  | cons a as ih =>
    intro hk
    rw [dedupKeepFirstByAux]
    by_cases ha : a.1 ∈ seen
    · rw [if_pos ha]
      have hne : (a.1 == k) = false := by
        apply Bool.eq_false_iff.mpr
        intro h
        exact hk ((beq_iff_eq.mp h) ▸ ha)
      rw [List.find?_cons, hne]
      exact ih seen hk
    · rw [if_neg ha]
      rw [List.find?_cons, List.find?_cons]
      cases hak : (a.1 == k) with
      | true => rfl
      | false =>
        exact ih (a.1 :: seen) (by
          intro h
          rcases List.mem_cons.mp h with h | h
          · exact absurd (beq_iff_eq.mpr h.symm) (by simp [hak])
          · exact hk h)

/-- Looking a key up in the dict built by `_load_un_official_map` finds the
first parsed mapping row with that M49 code, its ISO3 value upper-cased and
trimmed. -/
theorem mapLookup_load_un_official_map (rows : List MapRow) (k : Int) :
    mapLookup (load_un_official_map rows) k =
      ((rows.filterMap fun r =>
          (parseIntOpt r.m49cell).map fun m => (m, trimCell (upperCell r.iso3cell))).find?
        fun p => p.1 == k).map (fun p => p.2) := by
  unfold mapLookup load_un_official_map dedupKeepFirstBy
  rw [find?_fst_dedupKeepFirstByAux k [] _ (by simp)]

theorem mem_melt_immigrants {t : WideTable} {r : WRow} {j : Nat} {y v : Int}
    (hr : r ∈ t.rows) (ho : r.ocode = 900)
    (hy : t.yearCols.get? j = some y) (hv : r.vals.get? j = some v) :
    ({ m49 := r.dcode, country := r.dname, year := y, value := v } : MeltRec) ∈
      melt_immigrants t := by
  unfold melt_immigrants
  refine List.mem_flatMap.mpr ⟨(j, y), mem_enum_of_get? hy, List.mem_map.mpr ⟨r, ?_, ?_⟩⟩
  · exact List.mem_filter.mpr ⟨hr, by simp [ho]⟩
  · rw [List.get?_eq_getElem?] at hv
    simp [hv]

theorem mem_melt_emigrants {t : WideTable} {r : WRow} {j : Nat} {y v : Int}
    (hd : r ∈ t.rows) (ho : r.dcode = 900)
    (hy : t.yearCols.get? j = some y) (hv : r.vals.get? j = some v) :
    ({ m49 := r.ocode, country := r.oname, year := y, value := v } : MeltRec) ∈
      melt_emigrants t := by
  unfold melt_emigrants
  refine List.mem_flatMap.mpr ⟨(j, y), mem_enum_of_get? hy, List.mem_map.mpr ⟨r, ?_, ?_⟩⟩
  · exact List.mem_filter.mpr ⟨hd, by simp [ho]⟩
  · rw [List.get?_eq_getElem?] at hv
    simp [hv]

/-- Every left (`immigrants`) melt record survives the outer merge with its
key and value intact. -/
theorem outer_merge_keeps_imm {imm emi : List MeltRec} {l : MeltRec} (hl : l ∈ imm) :
    ∃ rec ∈ outer_merge_inout imm emi,
      rec.m49 = l.m49 ∧ rec.year = l.year ∧ rec.immigrants = some l.value := by
  unfold outer_merge_inout
  cases hms : emi.filter fun r =>
      r.m49 == l.m49 && r.country == l.country && r.year == l.year with
  | nil =>
    refine ⟨⟨l.m49, l.country, l.year, some l.value, none⟩,
      List.mem_append_left _ (List.mem_flatMap.mpr ⟨l, hl, ?_⟩), rfl, rfl, rfl⟩
    rw [hms]
    simp
  | cons m rest =>
    refine ⟨⟨l.m49, l.country, l.year, some l.value, some m.value⟩,
      List.mem_append_left _ (List.mem_flatMap.mpr ⟨l, hl, ?_⟩), rfl, rfl, rfl⟩
    rw [hms]
    simp

/-- Every right (`emigrants`) melt record survives the outer merge with its
key and value intact. -/
theorem outer_merge_keeps_emi {imm emi : List MeltRec} {r : MeltRec} (hr : r ∈ emi) :
    ∃ rec ∈ outer_merge_inout imm emi,
      rec.m49 = r.m49 ∧ rec.year = r.year ∧ rec.emigrants = some r.value := by
  unfold outer_merge_inout
  by_cases hmatch :
      (imm.any fun l => l.m49 == r.m49 && l.country == r.country && l.year == r.year) = true
  · obtain ⟨l, hl, hkey⟩ := List.any_eq_true.mp hmatch
    simp only [Bool.and_eq_true, beq_iff_eq] at hkey
    obtain ⟨⟨hm, hc⟩, hy⟩ := hkey
    have hrms : r ∈ emi.filter fun rr =>
        rr.m49 == l.m49 && rr.country == l.country && rr.year == l.year :=
      List.mem_filter.mpr ⟨hr, by simp [hm, hc, hy]⟩
    refine ⟨⟨l.m49, l.country, l.year, some l.value, some r.value⟩,
      List.mem_append_left _ (List.mem_flatMap.mpr ⟨l, hl, ?_⟩), hm, hy, rfl⟩
    rw [if_neg (by
      simp only [List.isEmpty_iff]
      exact List.ne_nil_of_mem hrms)]
    exact List.mem_map_of_mem _ hrms
  · have hfalse :
        (imm.any fun l => l.m49 == r.m49 && l.country == r.country && l.year == r.year)
          = false := Bool.eq_false_iff.mpr hmatch
    refine ⟨⟨r.m49, r.country, r.year, none, some r.value⟩,
      List.mem_append_right _ (List.mem_map_of_mem _ (List.mem_filter.mpr ⟨hr, ?_⟩)),
      rfl, rfl, rfl⟩
    rw [hfalse]
    rfl

/-! ## C1 — theorem -/

/-- C1: in the UN DESA reshape, every row of a wide input table whose origin
code is 900 (World) yields one long-format immigrants record per year
column, keyed by the destination M49 code and the year and carrying that
cell's value; symmetrically, every row whose destination code is 900 yields
one emigrants record per year keyed by the origin M49 code; and the
single-row table with origin 900, destination 250 and value 100 under year
column 1990 reshapes to exactly the immigrants row
(m49 250, year 1990, immigrants 100). -/
theorem c1_undesa_reshape_wide_to_long :
    (∀ (t : WideTable) (r : WRow) (j : Nat) (y v : Int),
        r ∈ t.rows → t.yearCols.get? j = some y → r.vals.get? j = some v →
        ((r.ocode = 900 → ∃ rec ∈ extract_inout_from_xlsx t,
            rec.m49 = r.dcode ∧ rec.year = y ∧ rec.immigrants = some v) ∧
         (r.dcode = 900 → ∃ rec ∈ extract_inout_from_xlsx t,
            rec.m49 = r.ocode ∧ rec.year = y ∧ rec.emigrants = some v))) ∧
    extract_inout_from_xlsx c1Table =
      [{ m49 := 250, country := str2cell "France", year := 1990,
         immigrants := some 100, emigrants := none }] := by
  constructor
  · intro t r j y v hr hy hv
    constructor
    · intro ho
      obtain ⟨rec, hrec, h1, h2, h3⟩ :=
        @outer_merge_keeps_imm (melt_immigrants t) (melt_emigrants t) _
          (mem_melt_immigrants hr ho hy hv)
      exact ⟨rec, mem_sortByKey.mpr hrec, h1, h2, h3⟩
    · intro hd
      obtain ⟨rec, hrec, h1, h2, h3⟩ :=
        @outer_merge_keeps_emi (melt_immigrants t) (melt_emigrants t) _
          (mem_melt_emigrants hr hd hy hv)
      exact ⟨rec, mem_sortByKey.mpr hrec, h1, h2, h3⟩
  · decide

/-- Witness for C1 at the spec's synthetic table. -/
theorem c1_undesa_reshape_wide_to_long_witness :
    ∃ rec ∈ extract_inout_from_xlsx c1Table,
      rec.m49 = 250 ∧ rec.year = 1990 ∧ rec.immigrants = some 100 :=
  (c1_undesa_reshape_wide_to_long.1 c1Table
    { ocode := 900, dcode := 250, oname := str2cell "World",
      dname := str2cell "France", vals := [100] }
    0 1990 100 (by decide) (by decide) (by decide)).1 (by decide)

/-! ## C2 — theorems -/

/-- C2 counterexample: with eleven distinct unmapped `(m49, country)` pairs
and an empty mapping, the row with code 911 is excluded from the ISO3
output, yet its pair is not among the pairs the log lists
(`faltas.head(10)` prints only the first ten) — so not every excluded
row's pair is reported in the log. -/
theorem c2_m49_iso3_mapping_counterexample :
    (∃ r ∈ c2df, r.m49 = some 911 ∧ r.country = [88, 58]) ∧
    map_to_iso3_output c2df [] = [] ∧
    (some 911, [88, 58]) ∉ logged_pairs c2df [] := by decide

/-- C2 (amended): the ISO3 output contains exactly the rows whose `m49`
resolves through the mapping, with `year`, `immigrants` and `emigrants`
unchanged (and the resolved ISO3 upper-cased and trimmed); every row whose
`m49` does not resolve is excluded and its `(m49, country)` pair enters the
deduplicated `faltas` table, of which only the first ten pairs (plus the
total count) are logged; and a mapping-file row whose M49 cell parses
numerically resolves through the loaded map to an upper-cased, trimmed
ISO3 value. -/
theorem c2_m49_iso3_mapping_amended :
    (∀ (df : List MigRow) (m : List (Int × Cell)) (s : IsoRow),
        s ∈ map_to_iso3_output df m ↔
          ∃ r ∈ df, ∃ mm iso, r.m49 = some mm ∧ mapLookup m mm = some iso ∧
            s = { iso3 := trimCell (upperCell iso), year := r.year,
                  immigrants := r.immigrants, emigrants := r.emigrants }) ∧
    (∀ (df : List MigRow) (m : List (Int × Cell)) (r : MigRow),
        r ∈ df → (r.m49.bind (mapLookup m)) = none →
          (r.m49, r.country) ∈ unmapped_pairs df m ∧
          logged_pairs df m = (unmapped_pairs df m).take 10) ∧
    (∀ (rows : List MapRow) (mm : Int),
        (∃ mr ∈ rows, parseIntOpt mr.m49cell = some mm) →
          ∃ mr ∈ rows, parseIntOpt mr.m49cell = some mm ∧
            mapLookup (load_un_official_map rows) mm =
              some (trimCell (upperCell mr.iso3cell))) := by
  refine ⟨?_, ?_, ?_⟩
  · intro df m s
    simp only [map_to_iso3_output, mem_sortByKey, List.mem_filterMap,
      Option.map_eq_some', Option.bind_eq_some]
    constructor
    · rintro ⟨r, hr, iso, ⟨mm, hmm, hiso⟩, hs⟩
      exact ⟨r, hr, mm, iso, hmm, hiso, hs.symm⟩
    · rintro ⟨r, hr, mm, iso, hmm, hiso, hs⟩
      exact ⟨r, hr, iso, ⟨mm, hmm, hiso⟩, hs.symm⟩
  · intro df m r hr hnone
    refine ⟨mem_dedupKeepFirst ?_, rfl⟩
    exact List.mem_map_of_mem _ (List.mem_filter.mpr ⟨hr, by simp [hnone]⟩)
  · intro rows mm hex
    obtain ⟨mr, hmr, hparse⟩ := hex
    have hmem : (mm, trimCell (upperCell mr.iso3cell)) ∈
        rows.filterMap fun r =>
          (parseIntOpt r.m49cell).map fun m' => (m', trimCell (upperCell r.iso3cell)) :=
      List.mem_filterMap.mpr ⟨mr, hmr, by rw [hparse]; rfl⟩
    have hsome : ((rows.filterMap fun r =>
        (parseIntOpt r.m49cell).map fun m' => (m', trimCell (upperCell r.iso3cell))).find?
          fun p => p.1 == mm).isSome :=
      List.find?_isSome.mpr ⟨_, hmem, by simp⟩
    obtain ⟨a, ha⟩ := Option.isSome_iff_exists.mp hsome
    have hain := List.find?_some ha
    have hamem := List.mem_of_find?_eq_some ha
    obtain ⟨mr', hmr', hfa⟩ := List.mem_filterMap.mp hamem
    obtain ⟨m', hm', hpair⟩ := Option.map_eq_some'.mp hfa
    have ha1 : a.1 = mm := beq_iff_eq.mp hain
    refine ⟨mr', hmr', ?_, ?_⟩
    · rw [hm']
      congr 1
      have : m' = a.1 := by rw [← hpair]
      omega
    · rw [mapLookup_load_un_official_map, ha]
      have h2 : a.2 = trimCell (upperCell mr'.iso3cell) := by rw [← hpair]
      simp [h2]

/-- Witness for C2's amended theorem: a mapped row appears in the output, an
unmapped row's pair is collected, and a lower-case whitespace-padded mapping
row resolves. -/
theorem c2_m49_iso3_mapping_amended_witness :
    ({ iso3 := str2cell "FRA", year := 1990, immigrants := some 100,
       emigrants := none } : IsoRow) ∈
        map_to_iso3_output
          [{ m49 := some 250, country := str2cell "France", year := 1990,
             immigrants := some 100, emigrants := none }]
          [(250, str2cell "FRA")] ∧
    (some 911, str2cell "Xland") ∈
      unmapped_pairs
        [{ m49 := some 911, country := str2cell "Xland", year := 1990,
           immigrants := some 1, emigrants := none }] [] ∧
    ∃ mr ∈ [({ m49cell := str2cell " 250 ", iso3cell := str2cell " fra " } : MapRow)],
      parseIntOpt mr.m49cell = some 250 ∧
        mapLookup (load_un_official_map
          [{ m49cell := str2cell " 250 ", iso3cell := str2cell " fra " }]) 250 =
          some (trimCell (upperCell mr.iso3cell)) :=
  ⟨(c2_m49_iso3_mapping_amended.1 _ _ _).mpr
      ⟨{ m49 := some 250, country := str2cell "France", year := 1990,
         immigrants := some 100, emigrants := none },
       by decide, 250, str2cell "FRA", by decide, by decide, by decide⟩,
   ((c2_m49_iso3_mapping_amended.2.1 _ _
      { m49 := some 911, country := str2cell "Xland", year := 1990,
        immigrants := some 1, emigrants := none }
      (by decide) (by decide)).1),
   c2_m49_iso3_mapping_amended.2.2 _ 250
     ⟨{ m49cell := str2cell " 250 ", iso3cell := str2cell " fra " },
      by decide, by decide⟩⟩

/-- `read_csv_filtered` on an existing file equals a single whole-file
filter: the chunked scan is invisible in the result. -/
theorem read_csv_filtered_eq_whole (f : Frame) (iso3 col_iso3 : Cell)
    (u : Option (List Cell)) (n : Nat) :
    read_csv_filtered (some f) iso3 col_iso3 u n =
      match (applyUsecols u f).header.indexOf? col_iso3 with
      | none => { header := u.getD [], rows := [] }
      | some i =>
        let kept := (applyUsecols u f).rows.filter fun row =>
          upperCell (row.getD i []) == upperCell iso3
        if kept.isEmpty then { header := u.getD [], rows := [] }
        else { header := (applyUsecols u f).header, rows := kept } := by
  cases hidx : (applyUsecols u f).header.indexOf? col_iso3 with
  | none =>
    simp only [read_csv_filtered, hidx]
    simp
  | some i =>
    simp only [read_csv_filtered, hidx]
    rw [flatMap_filter_chunksOf]

/-- C3: filtering an existing file through `read_csv_filtered` gives the
same frame whatever the chunk size (and equals filtering the whole file at
once); an ISO3 value matching no row yields the empty frame with the
requested columns, and a missing file yields the empty frame with the
requested columns. -/
theorem c3_read_csv_filtered_chunking :
    (∀ (f : Frame) (iso3 col_iso3 : Cell) (u : Option (List Cell)) (n m : Nat),
        read_csv_filtered (some f) iso3 col_iso3 u n =
          read_csv_filtered (some f) iso3 col_iso3 u m) ∧
    (∀ (f : Frame) (iso3 col_iso3 : Cell) (i n : Nat),
        f.header.indexOf? col_iso3 = some i →
        read_csv_filtered (some f) iso3 col_iso3 none n =
          (let kept := f.rows.filter fun row =>
              upperCell (row.getD i []) == upperCell iso3
           if kept.isEmpty then { header := [], rows := [] }
           else { header := f.header, rows := kept })) ∧
    (∀ (f : Frame) (iso3 col_iso3 : Cell) (u : Option (List Cell)) (n : Nat),
        (∀ i, (applyUsecols u f).header.indexOf? col_iso3 = some i →
          ∀ row ∈ (applyUsecols u f).rows,
            upperCell (row.getD i []) ≠ upperCell iso3) →
        read_csv_filtered (some f) iso3 col_iso3 u n =
          { header := u.getD [], rows := [] }) ∧
    (∀ (iso3 col_iso3 : Cell) (u : Option (List Cell)) (n : Nat),
        read_csv_filtered none iso3 col_iso3 u n = { header := u.getD [], rows := [] }) := by
  refine ⟨?_, ?_, ?_, ?_⟩
  · intro f iso3 col u n m
    rw [read_csv_filtered_eq_whole, read_csv_filtered_eq_whole]
  · intro f iso3 col i n hidx
    rw [read_csv_filtered_eq_whole]
    simp only [applyUsecols, hidx]
    rfl
  · intro f iso3 col u n hno
    rw [read_csv_filtered_eq_whole]
    cases hidx : (applyUsecols u f).header.indexOf? col with
    | none => rfl
    | some i =>
      have hkept : ((applyUsecols u f).rows.filter fun row =>
          upperCell (row.getD i []) == upperCell iso3) = [] := by
        rw [List.filter_eq_nil_iff]
        intro row hrow
        simp only [beq_iff_eq]
        exact hno i hidx row hrow
      simp only [hkept]
      rfl
  · intro iso3 col u n
    rfl

/-- Witness for C3 on the PRT/ESP/FRA file: chunk sizes 1 and 3 agree, the
whole-file characterization applies at column index 0, the absent value
"DEU" yields the empty frame, and so does a missing file. -/
theorem c3_read_csv_filtered_chunking_witness :
    read_csv_filtered (some c3file) (str2cell "ESP") (str2cell "iso3") none 1 =
      read_csv_filtered (some c3file) (str2cell "ESP") (str2cell "iso3") none 3 ∧
    read_csv_filtered (some c3file) (str2cell "ESP") (str2cell "iso3") none 2 =
      (let kept := c3file.rows.filter fun row =>
          upperCell (row.getD 0 []) == upperCell (str2cell "ESP")
       if kept.isEmpty then { header := [], rows := [] }
       else { header := c3file.header, rows := kept }) ∧
    read_csv_filtered (some c3file) (str2cell "DEU") (str2cell "iso3") none 2 =
      { header := [], rows := [] } ∧
    read_csv_filtered none (str2cell "ESP") (str2cell "iso3")
      (some [str2cell "iso3", str2cell "v"]) 2 =
      { header := [str2cell "iso3", str2cell "v"], rows := [] } :=
  ⟨c3_read_csv_filtered_chunking.1 c3file (str2cell "ESP") (str2cell "iso3") none 1 3,
   c3_read_csv_filtered_chunking.2.1 c3file (str2cell "ESP") (str2cell "iso3") 0 2 (by decide),
   c3_read_csv_filtered_chunking.2.2.1 c3file (str2cell "DEU") (str2cell "iso3") none 2
     (by decide),
   c3_read_csv_filtered_chunking.2.2.2 (str2cell "ESP") (str2cell "iso3")
     (some [str2cell "iso3", str2cell "v"]) 2⟩

theorem asciiUpper_asciiUpper (c : Nat) : asciiUpper (asciiUpper c) = asciiUpper c := by
  simp only [asciiUpper]
  split_ifs <;> omega

theorem upperCell_upperCell (s : Cell) : upperCell (upperCell s) = upperCell s := by
  unfold upperCell
  rw [List.map_map]
  exact List.map_congr_left fun c _ => asciiUpper_asciiUpper c

/-- C8: `read_csv_filtered` is case-insensitive in its `iso3` argument —
the call with `s` returns the same frame as the call with the upper-cased
`s`, because both the argument and the file's ISO3 column are upper-cased
before comparison. -/
theorem c8_read_csv_filtered_case_insensitive
    (file : Option Frame) (iso3 col_iso3 : Cell) (u : Option (List Cell)) (n : Nat) :
    read_csv_filtered file iso3 col_iso3 u n =
      read_csv_filtered file (upperCell iso3) col_iso3 u n := by
  cases file with
  | none => rfl
  | some f => simp only [read_csv_filtered, upperCell_upperCell]

/-- C9: because of the `lru_cache` wrapper, any call passing a Python
`list` for `usecols` (or a `dict` for `dtype`) raises `TypeError` before
the body runs — independently of the file's contents — while calls whose
arguments are all hashable reach the body. -/
theorem c9_read_csv_filtered_unhashable_args :
    (∀ (file : Option Frame) (path iso3 col dtype sep sig : PyVal) (l : List Cell),
        read_csv_filtered_lru file path iso3 col (.pyList l) dtype sep sig =
          .error .typeError) ∧
    (∀ (file : Option Frame) (path iso3 col usecols sep sig : PyVal)
        (d : List (Cell × Cell)),
        read_csv_filtered_lru file path iso3 col usecols (.pyDict d) sep sig =
          .error .typeError) ∧
    (∀ (file file' : Option Frame) (path iso3 col dtype sep sig : PyVal) (l : List Cell),
        read_csv_filtered_lru file path iso3 col (.pyList l) dtype sep sig =
          read_csv_filtered_lru file' path iso3 col (.pyList l) dtype sep sig) ∧
    (∀ (file : Option Frame) (p i c : Cell) (cs : List Cell),
        read_csv_filtered_lru file (.pyStr p) (.pyStr i) (.pyStr c) (.pyTuple cs)
            .pyNone .pyNone .pyNone =
          .ok (read_csv_filtered file i c (some cs) 200000)) := by
  refine ⟨?_, ?_, ?_, ?_⟩
  · intro file path iso3 col dtype sep sig l
    simp [read_csv_filtered_lru, pyHashable]
  · intro file path iso3 col usecols sep sig d
    simp [read_csv_filtered_lru, pyHashable]
  · intro file file' path iso3 col dtype sep sig l
    simp [read_csv_filtered_lru, pyHashable]
  · intro file p i c cs
    simp [read_csv_filtered_lru, pyHashable, pyAsCell, pyAsCols]

theorem tryAttempts_eq_findSome? (raw : List Nat) :
    ∀ l : List (PyEnc × Nat),
      tryAttempts raw l = l.findSome? fun p => pdReadCsvBytes p.1 p.2 raw := by
  intro l
  induction l with
  | nil => rfl
  | cons a rest ih =>
    rw [tryAttempts, List.findSome?_cons]
    cases pdReadCsvBytes a.1 a.2 raw with
    | none => exact ih
    | some f => rfl

theorem tryIoSeps_eq_findSome? (raw : List Nat) :
    ∀ l : List Nat, tryIoSeps raw l = l.findSome? fun s => pdReadCsvBytes .utf8 s raw := by
  intro l
  induction l with
  | nil => rfl
  | cons a rest ih =>
    rw [tryIoSeps, List.findSome?_cons]
    cases pdReadCsvBytes .utf8 a raw with
    | none => exact ih
    | some f => rfl

/-- C4 counterexample: on the bytes of `"a,b\n1,2\n"` preceded by a UTF-8
BOM, `_read_csv_safe_any` (which tries `utf-8-sig` before `utf-8`) strips
the BOM, while the claimed order (plain UTF-8 first) would keep U+FEFF glued
to the first header cell — the function does not return the first success of
the claimed encoding order. -/
theorem c4_encoding_order_counterexample :
    read_csv_safe_any c4bytes =
      some ⟨[str2cell "a", str2cell "b"], [[str2cell "1", str2cell "2"]]⟩ ∧
    tryAttempts c4bytes (claimedAttempts c4bytes) =
      some ⟨[0xFEFF :: str2cell "a", str2cell "b"], [[str2cell "1", str2cell "2"]]⟩ ∧
    read_csv_safe_any c4bytes ≠ tryAttempts c4bytes (claimedAttempts c4bytes) := by
  refine ⟨by decide, by decide, by decide⟩

/-- C4 (amended): on non-blank bytes `_read_csv_safe_any` returns the first
successful `pd.read_csv` attempt taken from the encodings
utf-16, utf-16-le, utf-16-be (only when a UTF-16 BOM or a NUL byte in the
first 4096 bytes is detected) followed by utf-8-sig, utf-8, cp1252, latin-1,
each tried against the separators `,`, `;`, tab in that order; io_csv's
`read_csv_safe_any` instead tries no explicit encodings (pandas' default
UTF-8) against the separators `;`, `,`, tab, in that order. -/
theorem c4_encoding_order_amended :
    (∀ raw : List Nat, blankBytes raw = false →
        read_csv_safe_any raw =
          (((if bomOrNul raw then [PyEnc.utf16, PyEnc.utf16le, PyEnc.utf16be] else []) ++
              [PyEnc.utf8sig, PyEnc.utf8, PyEnc.cp1252, PyEnc.latin1]).flatMap
            fun e => [44, 59, 9].map fun s => (e, s)).findSome?
            (fun p => pdReadCsvBytes p.1 p.2 raw)) ∧
    (∀ raw : List Nat, blankBytes raw = false →
        io_csv_read_csv_safe_any raw =
          [59, 44, 9].findSome? fun s => pdReadCsvBytes .utf8 s raw) := by
  constructor
  · intro raw hb
    rw [read_csv_safe_any, if_neg (by simp [hb]), tryAttempts_eq_findSome?]
    rfl
  · intro raw hb
    rw [io_csv_read_csv_safe_any, if_neg (by simp [hb]), tryIoSeps_eq_findSome?]
    rfl

/-- Witness for C4's amended theorem at the BOM-prefixed concrete bytes. -/
theorem c4_encoding_order_amended_witness :
    read_csv_safe_any c4bytes =
      (((if bomOrNul c4bytes then [PyEnc.utf16, PyEnc.utf16le, PyEnc.utf16be] else []) ++
          [PyEnc.utf8sig, PyEnc.utf8, PyEnc.cp1252, PyEnc.latin1]).flatMap
        fun e => [44, 59, 9].map fun s => (e, s)).findSome?
        (fun p => pdReadCsvBytes p.1 p.2 c4bytes) ∧
    io_csv_read_csv_safe_any c4bytes =
      [59, 44, 9].findSome? fun s => pdReadCsvBytes .utf8 s c4bytes :=
  ⟨c4_encoding_order_amended.1 c4bytes (by decide),
   c4_encoding_order_amended.2 c4bytes (by decide)⟩

/-! ## Codec round-trip lemmas -/

theorem utf8DecodeAux_encodeChar {c : Nat} (hc : validScalar c) (fuel : Nat)
    (rest : List Nat) :
    utf8DecodeAux (fuel + 1) (utf8EncodeChar c ++ rest) =
      (utf8DecodeAux fuel rest).map (c :: ·) := by
  obtain ⟨hlt, hsur⟩ := hc
  by_cases h1 : c < 0x80
  · simp only [utf8EncodeChar, if_pos h1, List.cons_append, List.nil_append, utf8DecodeAux]
  · by_cases h2 : c < 0x800
    · simp only [utf8EncodeChar, if_neg h1, if_pos h2, List.cons_append, List.nil_append,
        utf8DecodeAux]
      rw [if_neg (by omega), if_neg (by omega), if_pos (by omega), if_pos (by omega)]
      have harith : (0xC0 + c / 64 - 0xC0) * 64 + (0x80 + c % 64 - 0x80) = c := by omega
      rw [harith]
    · by_cases h3 : c < 0x10000
      · simp only [utf8EncodeChar, if_neg h1, if_neg h2, if_pos h3, List.cons_append,
          List.nil_append, utf8DecodeAux]
        rw [if_neg (by omega), if_neg (by omega), if_neg (by omega), if_pos (by omega),
          if_pos (by omega)]
        have harith : (0xE0 + c / 4096 - 0xE0) * 4096 + (0x80 + c / 64 % 64 - 0x80) * 64 +
            (0x80 + c % 64 - 0x80) = c := by omega
        rw [harith, if_neg (by omega)]
      · simp only [utf8EncodeChar, if_neg h1, if_neg h2, if_neg h3, List.cons_append,
          List.nil_append, utf8DecodeAux]
        rw [if_neg (by omega), if_neg (by omega), if_neg (by omega), if_neg (by omega),
          if_pos (by omega), if_pos (by omega)]
        have harith : (0xF0 + c / 262144 - 0xF0) * 262144 + (0x80 + c / 4096 % 64 - 0x80) * 4096 +
            (0x80 + c / 64 % 64 - 0x80) * 64 + (0x80 + c % 64 - 0x80) = c := by omega
        rw [harith, if_neg (by omega)]

theorem utf8DecodeAux_encode :
    ∀ (s : List Nat), (∀ c ∈ s, validScalar c) →
      ∀ fuel, s.length ≤ fuel → utf8DecodeAux fuel (utf8Encode s) = some s := by
  intro s
  induction s with
  | nil =>
    intro _ fuel _
    cases fuel <;> rfl
  | cons c s' ih =>
    intro hval fuel hlen
    match fuel with
    | 0 => simp at hlen
    | f + 1 =>
      have : utf8Encode (c :: s') = utf8EncodeChar c ++ utf8Encode s' := by
        simp [utf8Encode]
      rw [this, utf8DecodeAux_encodeChar (hval c (by simp)) f _,
        ih (fun x hx => hval x (by simp [hx])) f (by simp at hlen; omega)]
      rfl

theorem length_le_utf8Encode (s : List Nat) : s.length ≤ (utf8Encode s).length := by
  induction s with
  | nil => simp [utf8Encode]
  | cons c s' ih =>
    have : utf8Encode (c :: s') = utf8EncodeChar c ++ utf8Encode s' := by simp [utf8Encode]
    rw [this, List.length_append, List.length_cons]
    have hc : 1 ≤ (utf8EncodeChar c).length := by
      simp only [utf8EncodeChar]
      split_ifs <;> simp
    omega

/-- UTF-8 round trip on valid scalar text. -/
theorem utf8Decode_encode {s : List Nat} (hval : ∀ c ∈ s, validScalar c) :
    utf8Decode (utf8Encode s) = some s :=
  utf8DecodeAux_encode s hval _ (length_le_utf8Encode s)

theorem utf8Encode_pos_le {s : List Nat} (hval : ∀ c ∈ s, validScalar c ∧ c ≠ 0) :
    ∀ b ∈ utf8Encode s, 0 < b ∧ b ≤ 0xF4 := by
  intro b hb
  obtain ⟨c, hc, hbc⟩ := List.mem_flatMap.mp hb
  obtain ⟨⟨hlt, hsur⟩, hnz⟩ := hval c hc
  simp only [utf8EncodeChar] at hbc
  split_ifs at hbc <;> simp at hbc <;> omega

/-- A UTF-8 encoding of text whose first scalar is not U+FEFF never starts
with the UTF-8 BOM bytes. -/
theorem utf8Encode_take3_ne_bom {c : Nat} {t : List Nat} (hval : validScalar c)
    (hne : c ≠ 0xFEFF) : ((utf8Encode (c :: t)).take 3 == [0xEF, 0xBB, 0xBF]) = false := by
  obtain ⟨hlt, hsur⟩ := hval
  have henc : utf8Encode (c :: t) = utf8EncodeChar c ++ utf8Encode t := by simp [utf8Encode]
  rw [henc]
  apply Bool.eq_false_iff.mpr
  intro h
  simp only [utf8EncodeChar] at h
  split_ifs at h with h1 h2 h3
  all_goals
    simp only [List.cons_append, List.nil_append, List.take_succ_cons, List.take_zero,
      beq_iff_eq, List.cons.injEq] at h
  all_goals omega

theorem utf16leToUnits_encode :
    ∀ units : List Nat, (∀ u ∈ units, u < 0x10000) →
      utf16leToUnits (units.flatMap utf16leUnitBytes) = some units := by
  intro units
  induction units with
  | nil => intro _; rfl
  | cons u us ih =>
    intro hu
    have : (u :: us).flatMap utf16leUnitBytes =
        u % 256 :: u / 256 :: us.flatMap utf16leUnitBytes := by
      simp [utf16leUnitBytes]
    rw [this, utf16leToUnits, ih (fun x hx => hu x (by simp [hx]))]
    have harith : u % 256 + 256 * (u / 256) = u := by omega
    simp [harith]

theorem mem_utf16EncodeUnits_lt {c u : Nat} (hc : validScalar c)
    (hu : u ∈ utf16EncodeUnits c) : u < 0x10000 := by
  obtain ⟨hlt, hsur⟩ := hc
  simp only [utf16EncodeUnits] at hu
  split_ifs at hu <;> simp at hu <;> omega

theorem utf16UnitsDecode_encodeChar {c : Nat} (hc : validScalar c) (fuel : Nat)
    (rest : List Nat) :
    utf16UnitsDecode (fuel + 1) (utf16EncodeUnits c ++ rest) =
      (utf16UnitsDecode fuel rest).map (c :: ·) := by
  obtain ⟨hlt, hsur⟩ := hc
  by_cases h1 : c < 0x10000
  · simp only [utf16EncodeUnits, if_pos h1, List.cons_append, List.nil_append,
      utf16UnitsDecode]
    rw [if_pos (by omega)]
  · simp only [utf16EncodeUnits, if_neg h1, List.cons_append, List.nil_append,
      utf16UnitsDecode]
    rw [if_neg (by omega), if_pos (by omega), if_pos (by omega)]
    have harith : 0x10000 + (0xD800 + (c - 0x10000) / 1024 - 0xD800) * 1024 +
        (0xDC00 + (c - 0x10000) % 1024 - 0xDC00) = c := by omega
    rw [harith]

theorem utf16UnitsDecode_encode :
    ∀ (s : List Nat), (∀ c ∈ s, validScalar c) →
      ∀ fuel, s.length ≤ fuel →
        utf16UnitsDecode fuel (s.flatMap utf16EncodeUnits) = some s := by
  intro s
  induction s with
  | nil =>
    intro _ fuel _
    cases fuel <;> rfl
  | cons c s' ih =>
    intro hval fuel hlen
    match fuel with
    | 0 => simp at hlen
    | f + 1 =>
      rw [List.flatMap_cons, utf16UnitsDecode_encodeChar (hval c (by simp)) f _,
        ih (fun x hx => hval x (by simp [hx])) f (by simp at hlen; omega)]
      rfl

theorem length_le_flatMap_utf16EncodeUnits (s : List Nat) :
    s.length ≤ (s.flatMap utf16EncodeUnits).length := by
  induction s with
  | nil => simp
  | cons c s' ih =>
    rw [List.flatMap_cons, List.length_append, List.length_cons]
    have hc : 1 ≤ (utf16EncodeUnits c).length := by
      simp only [utf16EncodeUnits]
      split_ifs <;> simp
    omega

/-- UTF-16-LE round trip on valid scalar text. -/
theorem utf16leDecode_encode {s : List Nat} (hval : ∀ c ∈ s, validScalar c) :
    utf16leDecode ((s.flatMap utf16EncodeUnits).flatMap utf16leUnitBytes) = some s := by
  rw [utf16leDecode, utf16leToUnits_encode _ (fun u hu => by
    obtain ⟨c, hc, hcu⟩ := List.mem_flatMap.mp hu
    exact mem_utf16EncodeUnits_lt (hval c hc) hcu)]
  exact utf16UnitsDecode_encode s hval _ (length_le_flatMap_utf16EncodeUnits s)

/-- `bytes.decode("utf-16")` of Python's `str.encode("utf-16")` output
recovers the text. -/
theorem utf16Decode_encode {s : List Nat} (hval : ∀ c ∈ s, validScalar c) :
    utf16Decode (utf16Encode s) = some s := by
  rw [utf16Encode, utf16Decode]
  rw [if_pos (by simp)]
  simp only [List.cons_append, List.nil_append, List.drop_succ_cons, List.drop_zero]
  exact utf16leDecode_encode hval

/-! ## CSV serialize/parse lemmas -/

theorem splitOnChar_ne_nil (sep : Nat) : ∀ l : List Nat, splitOnChar sep l ≠ [] := by
  intro l
  induction l with
  | nil => simp [splitOnChar]
  | cons c cs ih =>
    rw [splitOnChar]
    split
    · simp
    · cases h : splitOnChar sep cs with
      | nil => simp
      | cons a as => simp

theorem splitOnChar_of_not_mem {sep : Nat} :
    ∀ {x : List Nat}, sep ∉ x → splitOnChar sep x = [x] := by
  intro x
  induction x with
  | nil => intro _; rfl
  | cons c cs ih =>
    intro hmem
    rw [splitOnChar, if_neg (by intro hc; exact hmem (hc ▸ List.mem_cons_self _ _))]
    rw [ih (fun hc => hmem (List.mem_cons_of_mem _ hc))]

theorem splitOnChar_append_cons {sep : Nat} :
    ∀ {a : List Nat}, sep ∉ a → ∀ r : List Nat,
      splitOnChar sep (a ++ sep :: r) = a :: splitOnChar sep r := by
  intro a
  induction a with
  | nil =>
    intro _ r
    simp [splitOnChar]
  | cons c cs ih =>
    intro hmem r
    rw [List.cons_append, splitOnChar,
      if_neg (by intro hc; exact hmem (hc ▸ List.mem_cons_self _ _)),
      ih (fun hc => hmem (List.mem_cons_of_mem _ hc)) r]

theorem mem_sepJoin {sep c : Nat} :
    ∀ {cells : List Cell}, c ∈ sepJoin sep cells →
      c = sep ∨ ∃ cell ∈ cells, c ∈ cell := by
  intro cells
  induction cells with
  | nil => intro h; simp [sepJoin] at h
  | cons x xs ih =>
    intro h
    cases xs with
    | nil => exact Or.inr ⟨x, by simp, h⟩
    | cons y ys =>
      have hsj : sepJoin sep (x :: y :: ys) = x ++ sep :: sepJoin sep (y :: ys) := rfl
      rw [hsj] at h
      rcases List.mem_append.mp h with h | h
      · exact Or.inr ⟨x, by simp, h⟩
      · rcases List.mem_cons.mp h with h | h
        · exact Or.inl h
        · rcases ih h with h | ⟨cell, hc, hcc⟩
          · exact Or.inl h
          · exact Or.inr ⟨cell, List.mem_cons_of_mem _ hc, hcc⟩

theorem mem_sepJoin_head {sep c : Nat} {x : Cell} {xs : List Cell} (hc : c ∈ x) :
    c ∈ sepJoin sep (x :: xs) := by
  cases xs with
  | nil => exact hc
  | cons y ys =>
    have hsj : sepJoin sep (x :: y :: ys) = x ++ sep :: sepJoin sep (y :: ys) := rfl
    rw [hsj]
    exact List.mem_append_left _ hc

theorem splitOnChar_sepJoin {sep : Nat} :
    ∀ {cells : List Cell}, cells ≠ [] → (∀ cell ∈ cells, sep ∉ cell) →
      splitOnChar sep (sepJoin sep cells) = cells := by
  intro cells
  induction cells with
  | nil => intro h; exact absurd rfl h
  | cons x xs ih =>
    intro _ hfree
    cases xs with
    | nil => exact splitOnChar_of_not_mem (hfree x (by simp))
    | cons y ys =>
      have hsj : sepJoin sep (x :: y :: ys) = x ++ sep :: sepJoin sep (y :: ys) := rfl
      rw [hsj, splitOnChar_append_cons (hfree x (by simp)),
        ih (by simp) (fun cell hc => hfree cell (List.mem_cons_of_mem _ hc))]

theorem splitOnChar_lines :
    ∀ (L : List (List Nat)), (∀ line ∈ L, (10 : Nat) ∉ line) →
      splitOnChar 10 (L.flatMap fun line => line ++ [10]) = L ++ [[]] := by
  intro L
  induction L with
  | nil => intro _; rfl
  | cons line rest ih =>
    intro hfree
    rw [List.flatMap_cons, List.append_assoc, List.cons_append, List.nil_append,
      splitOnChar_append_cons (hfree line (by simp)),
      ih (fun l hl => hfree l (List.mem_cons_of_mem _ hl))]
    rfl

theorem mem_toCsvText {sep c : Nat} {f : Frame} (h : c ∈ toCsvText sep f) :
    c = sep ∨ c = 10 ∨ ∃ row ∈ f.header :: f.rows, ∃ cell ∈ row, c ∈ cell := by
  obtain ⟨row, hrow, hc⟩ := List.mem_flatMap.mp h
  rcases List.mem_append.mp hc with h | h
  · rcases mem_sepJoin h with h | ⟨cell, hcell, hcc⟩
    · exact Or.inl h
    · exact Or.inr (Or.inr ⟨row, hrow, cell, hcell, hcc⟩)
  · simp at h
    exact Or.inr (Or.inl h)

theorem ten_mem_toCsvText (sep : Nat) (f : Frame) : (10 : Nat) ∈ toCsvText sep f :=
  List.mem_flatMap.mpr ⟨f.header, by simp, List.mem_append_right _ (by simp)⟩

/-- Serializing a well-shaped, separator-free frame and parsing it back
recovers the frame. -/
theorem parseCsvText_toCsvText {sep : Nat} {f : Frame} (hsep : sep ≠ 10)
    (hne : f.header ≠ [])
    (hrect : ∀ row ∈ f.rows, row.length = f.header.length)
    (hfree : ∀ row ∈ f.header :: f.rows, ∀ cell ∈ row, sep ∉ cell ∧ (10 : Nat) ∉ cell) :
    parseCsvText sep (toCsvText sep f) = some f := by
  have hlinefree : ∀ line ∈ (f.header :: f.rows).map (sepJoin sep), (10 : Nat) ∉ line := by
    intro line hline h10
    obtain ⟨row, hrow, hjoin⟩ := List.mem_map.mp hline
    rcases mem_sepJoin (hjoin ▸ h10) with h | ⟨cell, hcell, hcc⟩
    · exact hsep h.symm
    · exact (hfree row hrow cell hcell).2 hcc
  have htext : toCsvText sep f =
      ((f.header :: f.rows).map (sepJoin sep)).flatMap fun line => line ++ [10] := by
    rw [toCsvText, List.flatMap_map]
  rw [parseCsvText, htext, splitOnChar_lines _ hlinefree]
  have hlast : ((((f.header :: f.rows).map (sepJoin sep)) ++ [[]]).getLast? = some []) := by
    rw [List.getLast?_concat]
  rw [if_pos hlast, List.dropLast_concat, List.map_cons]
  have hjoinh : splitOnChar sep (sepJoin sep f.header) = f.header :=
    splitOnChar_sepJoin hne (fun cell hc => (hfree f.header (by simp) cell hc).1)
  have hjoinr : ∀ row ∈ f.rows, splitOnChar sep (sepJoin sep row) = row := by
    intro row hrow
    have hrne : row ≠ [] := by
      intro hempty
      have hh := hrect row hrow
      rw [hempty] at hh
      simp only [List.length_nil] at hh
      exact hne (List.length_eq_zero.mp hh.symm)
    exact splitOnChar_sepJoin hrne
      (fun cell hc => (hfree row (List.mem_cons_of_mem _ hrow) cell hc).1)
  simp only [hjoinh, List.map_map]
  have hrows : f.rows.map (fun row => splitOnChar sep (sepJoin sep row)) = f.rows := by
    rw [List.map_congr_left fun row hrow => hjoinr row hrow]
    exact List.map_id' f.rows
  rw [show ((fun l => splitOnChar sep l) ∘ fun row => sepJoin sep row) =
      (fun row => splitOnChar sep (sepJoin sep row)) from rfl, hrows]
  rw [if_pos (by
    rw [List.all_eq_true]
    intro row hrow
    exact beq_iff_eq.mpr (hrect row hrow))]

/-! ## Byte-level facts feeding the robust-reader round trip -/

theorem blankBytes_eq_false_of_mem {raw : List Nat} {b : Nat} (hb : b ∈ raw)
    (hnb : isStripChar b = false) : blankBytes raw = false := by
  cases h : blankBytes raw with
  | false => rfl
  | true => exact absurd (List.all_eq_true.mp h b hb) (by simp [hnb])

theorem take2_bom_checks_false {raw : List Nat} (hb : ∀ b ∈ raw, b ≤ 0xF4) :
    (raw.take 2 == [0xFF, 0xFE]) = false ∧ (raw.take 2 == [0xFE, 0xFF]) = false := by
  cases raw with
  | nil => constructor <;> rfl
  | cons b bs =>
    have hble := hb b (List.mem_cons_self _ _)
    constructor <;>
      (apply Bool.eq_false_iff.mpr
       intro h
       simp only [List.take_succ_cons, beq_iff_eq, List.cons.injEq] at h
       omega)

theorem contains_zero_take_false {raw : List Nat} (hb : ∀ b ∈ raw, 0 < b) :
    ((raw.take 4096).contains 0) = false := by
  apply Bool.eq_false_iff.mpr
  intro h
  have hmem : (0 : Nat) ∈ raw.take 4096 := List.mem_of_elem_eq_true h
  have := hb 0 (List.mem_of_mem_take hmem)
  omega

theorem bomOrNul_utf8Encode_false {text : List Nat}
    (hval : ∀ c ∈ text, validScalar c ∧ c ≠ 0) :
    bomOrNul (utf8Encode text) = false := by
  have hbytes := utf8Encode_pos_le hval
  obtain ⟨h1, h2⟩ := take2_bom_checks_false (fun b hb => (hbytes b hb).2)
  rw [bomOrNul, h1, h2, contains_zero_take_false (fun b hb => (hbytes b hb).1)]
  rfl

theorem bomOrNul_utf8sigEncode_false {text : List Nat}
    (hval : ∀ c ∈ text, validScalar c ∧ c ≠ 0) :
    bomOrNul (utf8sigEncode text) = false := by
  have hbytes := utf8Encode_pos_le hval
  have hcontains : (((utf8sigEncode text).take 4096).contains 0) = false := by
    apply contains_zero_take_false
    intro b hb
    rw [utf8sigEncode] at hb
    rcases List.mem_append.mp hb with h | h
    · simp at h
      omega
    · exact (hbytes b h).1
  rw [bomOrNul, hcontains]
  rfl

theorem exists_nonstrip_byte_utf8EncodeChar {c : Nat} (hcs : isStripChar c = false) :
    ∃ b ∈ utf8EncodeChar c, isStripChar b = false := by
  by_cases h1 : c < 0x80
  · exact ⟨c, by simp [utf8EncodeChar, h1], hcs⟩
  · by_cases h2 : c < 0x800
    · refine ⟨0xC0 + c / 64, by simp [utf8EncodeChar, h1, h2], ?_⟩
      simp only [isStripChar]
      simp only [decide_eq_true_eq, Bool.or_eq_false_iff, decide_eq_false_iff_not]
      omega
    · by_cases h3 : c < 0x10000
      · refine ⟨0xE0 + c / 4096, by simp [utf8EncodeChar, h1, h2, h3], ?_⟩
        simp only [isStripChar]
        simp only [decide_eq_true_eq, Bool.or_eq_false_iff, decide_eq_false_iff_not]
        omega
      · refine ⟨0xF0 + c / 262144, by simp [utf8EncodeChar, h1, h2, h3], ?_⟩
        simp only [isStripChar]
        simp only [decide_eq_true_eq, Bool.or_eq_false_iff, decide_eq_false_iff_not]
        omega

theorem head_cell_char_mem_toCsvText {f : Frame} {sep c : Nat}
    (hmem : c ∈ f.header.headD []) : c ∈ toCsvText sep f := by
  cases hh : f.header with
  | nil => rw [hh] at hmem; simp at hmem
  | cons h0 hs =>
    rw [hh] at hmem
    simp only [List.headD_cons] at hmem
    refine List.mem_flatMap.mpr ⟨f.header, List.mem_cons_self _ _, List.mem_append_left _ ?_⟩
    rw [hh]
    exact mem_sepJoin_head hmem

theorem toCsvText_char_facts {f : Frame} {sep : Nat}
    (hsepv : validScalar sep ∧ sep ≠ 0 ∧ sep ≠ 0xFEFF)
    (hcells : ∀ row ∈ f.header :: f.rows, ∀ cell ∈ row, ∀ c ∈ cell,
        validScalar c ∧ c ≠ sep ∧ c ≠ 10 ∧ c ≠ 13 ∧ c ≠ 0 ∧ c ≠ 0xFEFF) :
    ∀ c ∈ toCsvText sep f, validScalar c ∧ c ≠ 0 ∧ c ≠ 0xFEFF := by
  intro c hc
  rcases mem_toCsvText hc with h | h | ⟨row, hrow, cell, hcell, hcc⟩
  · subst h; exact hsepv
  · subst h
    refine ⟨by decide, by decide, by decide⟩
  · obtain ⟨hv, _, _, _, h0, hF⟩ := hcells row hrow cell hcell c hcc
    exact ⟨hv, h0, hF⟩

theorem blankBytes_utf8Encode_toCsvText_false {f : Frame} {sep : Nat}
    (hnb : ∃ c ∈ f.header.headD [], isStripChar c = false) :
    blankBytes (utf8Encode (toCsvText sep f)) = false := by
  obtain ⟨c, hcm, hcs⟩ := hnb
  obtain ⟨b, hbm, hbs⟩ := exists_nonstrip_byte_utf8EncodeChar hcs
  exact blankBytes_eq_false_of_mem
    (List.mem_flatMap.mpr ⟨c, head_cell_char_mem_toCsvText hcm, hbm⟩) hbs

theorem tryAttempts_first {raw : List Nat} {e : PyEnc} {s : Nat} {f : Frame}
    (rest : List (PyEnc × Nat)) (h : pdReadCsvBytes e s raw = some f) :
    tryAttempts raw ((e, s) :: rest) = some f := by
  rw [tryAttempts, h]

theorem tryIoSeps_first {raw : List Nat} {s : Nat} {f : Frame}
    (rest : List Nat) (h : pdReadCsvBytes .utf8 s raw = some f) :
    tryIoSeps raw (s :: rest) = some f := by
  rw [tryIoSeps, h]

/-! ## C5 — theorems -/

/-- C5 counterexample: the two-column frame `a|b / 1|2` written with UTF-8
and separator `;` is read back by `_read_csv_safe_any` as a single-column
frame, because the earlier separator attempt `,` parses the `;`-separated
text without raising — the write-then-read round trip does not preserve the
data for every (encoding, separator) choice in the claimed sets. -/
theorem c5_roundtrip_counterexample :
    read_csv_safe_any (writeFrame .wutf8 59 c5frame) =
      some ⟨[str2cell "a;b"], [[str2cell "1;2"]]⟩ ∧
    read_csv_safe_any (writeFrame .wutf8 59 c5frame) ≠ some c5frame := by
  refine ⟨by decide, by decide⟩

/-- C5 (amended): the write-then-read round trip through
`_read_csv_safe_any` preserves the data for separator `,` (the first
separator it attempts) under each of utf-8, utf-8-sig and utf-16, for every
well-shaped frame whose cells are valid scalar text free of the separator,
line breaks, NUL and U+FEFF and whose first header cell is not all
whitespace; `read_csv_safe` (which tries `;` first with default UTF-8
decoding) round-trips separator `;` with utf-8 under the analogous
conditions.  (Other written separators can be mis-parsed by an earlier
separator attempt, as the counterexample shows.) -/
theorem c5_roundtrip_amended :
    (∀ (f : Frame) (enc : WEnc),
        f.header ≠ [] →
        (∀ row ∈ f.rows, row.length = f.header.length) →
        (∀ row ∈ f.header :: f.rows, ∀ cell ∈ row, ∀ c ∈ cell,
            validScalar c ∧ c ≠ 44 ∧ c ≠ 10 ∧ c ≠ 13 ∧ c ≠ 0 ∧ c ≠ 0xFEFF) →
        (∃ c ∈ f.header.headD [], isStripChar c = false) →
        read_csv_safe_any (writeFrame enc 44 f) = some f) ∧
    (∀ f : Frame,
        f.header ≠ [] →
        (∀ row ∈ f.rows, row.length = f.header.length) →
        (∀ row ∈ f.header :: f.rows, ∀ cell ∈ row, ∀ c ∈ cell,
            validScalar c ∧ c ≠ 59 ∧ c ≠ 10 ∧ c ≠ 13 ∧ c ≠ 0 ∧ c ≠ 0xFEFF) →
        (∃ c ∈ f.header.headD [], isStripChar c = false) →
        read_csv_safe (writeFrame .wutf8 59 f) none = some f) := by
  constructor
  · intro f enc hne hrect hcells hnb
    have htextf := toCsvText_char_facts (by decide) hcells
    have hvalid : ∀ c ∈ toCsvText 44 f, validScalar c := fun c hc => (htextf c hc).1
    have hvz : ∀ c ∈ toCsvText 44 f, validScalar c ∧ c ≠ 0 :=
      fun c hc => ⟨(htextf c hc).1, (htextf c hc).2.1⟩
    have hparse : parseCsvText 44 (toCsvText 44 f) = some f :=
      parseCsvText_toCsvText (by decide) hne hrect (fun row hrow cell hcell =>
        ⟨fun hc => (hcells row hrow cell hcell 44 hc).2.1 rfl,
         fun hc => (hcells row hrow cell hcell 10 hc).2.2.1 rfl⟩)
    cases enc with
    | wutf8 =>
      have hblank : blankBytes (utf8Encode (toCsvText 44 f)) = false :=
        blankBytes_utf8Encode_toCsvText_false hnb
      have hbom : bomOrNul (utf8Encode (toCsvText 44 f)) = false :=
        bomOrNul_utf8Encode_false hvz
      have htne : toCsvText 44 f ≠ [] := List.ne_nil_of_mem (ten_mem_toCsvText 44 f)
      obtain ⟨c0, t', htext0⟩ := List.exists_cons_of_ne_nil htne
      have hc0 : c0 ∈ toCsvText 44 f := htext0 ▸ List.mem_cons_self _ _
      have hbom3 : ((utf8Encode (toCsvText 44 f)).take 3 == [0xEF, 0xBB, 0xBF]) = false := by
        rw [htext0]
        exact utf8Encode_take3_ne_bom (htextf c0 hc0).1 (htextf c0 hc0).2.2
      have hfirst : pdReadCsvBytes .utf8sig 44 (utf8Encode (toCsvText 44 f)) = some f := by
        simp only [pdReadCsvBytes, pyDecode, utf8sigDecode, hbom3, Bool.false_eq_true,
          if_false]
        rw [utf8Decode_encode hvalid]
        exact hparse
      rw [show writeFrame .wutf8 44 f = utf8Encode (toCsvText 44 f) from rfl,
        read_csv_safe_any, if_neg (by simp [hblank])]
      have hencs : encsFor (utf8Encode (toCsvText 44 f)) =
          [.utf8sig, .utf8, .cp1252, .latin1] := by
        rw [encsFor, hbom]
        rfl
      rw [hencs]
      simp only [offlineSeps, List.flatMap_cons, List.map_cons, List.map_nil,
        List.flatMap_nil, List.append_nil, List.cons_append, List.nil_append]
      exact tryAttempts_first _ hfirst
    | wutf8sig =>
      have hblank : blankBytes (utf8sigEncode (toCsvText 44 f)) = false :=
        blankBytes_eq_false_of_mem
          (show (0xEF : Nat) ∈ utf8sigEncode (toCsvText 44 f) by
            rw [utf8sigEncode]
            exact List.mem_append_left _ (by simp))
          (by decide)
      have hbom : bomOrNul (utf8sigEncode (toCsvText 44 f)) = false :=
        bomOrNul_utf8sigEncode_false hvz
      have hfirst : pdReadCsvBytes .utf8sig 44 (utf8sigEncode (toCsvText 44 f)) = some f := by
        simp only [pdReadCsvBytes, pyDecode]
        have hdec : utf8sigDecode (utf8sigEncode (toCsvText 44 f)) =
            some (toCsvText 44 f) := by
          rw [utf8sigEncode, utf8sigDecode]
          have hcond : (List.take 3 ([0xEF, 0xBB, 0xBF] ++ utf8Encode (toCsvText 44 f)) ==
              [0xEF, 0xBB, 0xBF]) = true := rfl
          rw [if_pos hcond]
          exact utf8Decode_encode hvalid
        rw [hdec]
        exact hparse
      rw [show writeFrame .wutf8sig 44 f = utf8sigEncode (toCsvText 44 f) from rfl,
        read_csv_safe_any, if_neg (by simp [hblank])]
      have hencs : encsFor (utf8sigEncode (toCsvText 44 f)) =
          [.utf8sig, .utf8, .cp1252, .latin1] := by
        rw [encsFor, hbom]
        rfl
      rw [hencs]
      simp only [offlineSeps, List.flatMap_cons, List.map_cons, List.map_nil,
        List.flatMap_nil, List.append_nil, List.cons_append, List.nil_append]
      exact tryAttempts_first _ hfirst
    | wutf16 =>
      have hblank : blankBytes (utf16Encode (toCsvText 44 f)) = false :=
        blankBytes_eq_false_of_mem
          (show (0xFF : Nat) ∈ utf16Encode (toCsvText 44 f) by
            rw [utf16Encode]
            exact List.mem_append_left _ (by simp))
          (by decide)
      have hbom : bomOrNul (utf16Encode (toCsvText 44 f)) = true := rfl
      have hfirst : pdReadCsvBytes .utf16 44 (utf16Encode (toCsvText 44 f)) = some f := by
        simp only [pdReadCsvBytes, pyDecode]
        rw [utf16Decode_encode hvalid]
        exact hparse
      rw [show writeFrame .wutf16 44 f = utf16Encode (toCsvText 44 f) from rfl,
        read_csv_safe_any, if_neg (by simp [hblank])]
      have hencs : encsFor (utf16Encode (toCsvText 44 f)) =
          [.utf16, .utf16le, .utf16be, .utf8sig, .utf8, .cp1252, .latin1] := by
        rw [encsFor, hbom]
        rfl
      rw [hencs]
      simp only [offlineSeps, List.flatMap_cons, List.map_cons, List.map_nil,
        List.flatMap_nil, List.append_nil, List.cons_append, List.nil_append]
      exact tryAttempts_first _ hfirst
  · intro f hne hrect hcells hnb
    have htextf := toCsvText_char_facts (by decide) hcells
    have hvalid : ∀ c ∈ toCsvText 59 f, validScalar c := fun c hc => (htextf c hc).1
    have hparse : parseCsvText 59 (toCsvText 59 f) = some f :=
      parseCsvText_toCsvText (by decide) hne hrect (fun row hrow cell hcell =>
        ⟨fun hc => (hcells row hrow cell hcell 59 hc).2.1 rfl,
         fun hc => (hcells row hrow cell hcell 10 hc).2.2.1 rfl⟩)
    have hblank : blankBytes (utf8Encode (toCsvText 59 f)) = false :=
      blankBytes_utf8Encode_toCsvText_false hnb
    have hfirst : pdReadCsvBytes .utf8 59 (utf8Encode (toCsvText 59 f)) = some f := by
      simp only [pdReadCsvBytes, pyDecode]
      rw [utf8Decode_encode hvalid]
      exact hparse
    rw [show writeFrame .wutf8 59 f = utf8Encode (toCsvText 59 f) from rfl,
      read_csv_safe, if_neg (by simp [hblank])]
    simp only [ioSeps]
    rw [tryIoSeps_first _ hfirst]
    rfl

/-- Witness for C5's amended theorem: the concrete two-column frame
round-trips through all three encodings with separator `,` and through
`read_csv_safe` with separator `;`. -/
theorem c5_roundtrip_amended_witness :
    read_csv_safe_any (writeFrame .wutf8 44 c5frame) = some c5frame ∧
    read_csv_safe_any (writeFrame .wutf8sig 44 c5frame) = some c5frame ∧
    read_csv_safe_any (writeFrame .wutf16 44 c5frame) = some c5frame ∧
    read_csv_safe (writeFrame .wutf8 59 c5frame) none = some c5frame :=
  ⟨c5_roundtrip_amended.1 c5frame .wutf8 (by decide) (by decide) (by decide) (by decide),
   c5_roundtrip_amended.1 c5frame .wutf8sig (by decide) (by decide) (by decide) (by decide),
   c5_roundtrip_amended.1 c5frame .wutf16 (by decide) (by decide) (by decide) (by decide),
   c5_roundtrip_amended.2 c5frame (by decide) (by decide) (by decide) (by decide)⟩

/-! ## C6 — theorem -/

/-- C6: whatever the file contents, the ISO3 argument and the chunk size,
the frame returned by `load_migration_inout_for_iso3` has at most one row
per year: after the `drop_duplicates(subset=["year"], keep="last")` step no
two returned rows share the same year (all returned rows carry the same
requested ISO3, so this is at most one row per `(iso3, year)`). -/
theorem c6_migration_inout_year_unique
    (file : Option (List MigInRaw)) (cols_ok : Bool) (iso3 : Cell) (chunksize : Nat) :
    (load_migration_inout_for_iso3 file cols_ok iso3 chunksize).Pairwise
      fun a b => a.year ≠ b.year := by
  cases file with
  | none => simp [load_migration_inout_for_iso3]
  | some rows => exact pairwise_dropDupLastBy _ _

/-- Witness for C6 at a concrete file with a duplicated year. -/
theorem c6_migration_inout_year_unique_witness :
    (load_migration_inout_for_iso3 (some c6file) true (str2cell "PRT") 1).Pairwise
      (fun a b => a.year ≠ b.year) ∧
    load_migration_inout_for_iso3 (some c6file) true (str2cell "PRT") 1 =
      [⟨str2cell "PRT", some 1990, some 7, some 4⟩] :=
  ⟨c6_migration_inout_year_unique (some c6file) true (str2cell "PRT") 1, by decide⟩

/-! ## C7 — theorems -/

/-- C7 counterexample: `cities_for_iso3` applies no sort — on a file whose
two PRT rows are stored with years 2000 before 1990 and city names `b`
before `a`, the returned frame is sorted neither by year nor by name. -/
theorem c7_accessor_sorting_counterexample :
    ¬ List.Sorted (keyLe fun r : CityRow => optIntKey r.year)
        (cities_for_iso3 c7rows (str2cell "PRT")) ∧
    ¬ List.Sorted (keyLe fun r : CityRow => r.city)
        (cities_for_iso3 c7rows (str2cell "PRT")) := by
  refine ⟨by decide, by decide⟩

/-- C7 (amended): the accessors that sort do so by their natural key —
`wb_series_for_country` by year, `unesco_for_iso3` by (year, site) — but
`cities_for_iso3` and `leaders_for_iso3` only filter: they return the
matching rows in file order, without sorting. -/
theorem c7_accessor_sorting_amended :
    (∀ (file : Option (List WbRaw)) (iso3 : Cell),
        List.Sorted (keyLe fun r : WbRow => optIntKey r.year)
          (wb_series_for_country file iso3)) ∧
    (∀ (file : Option (List UnescoRaw)) (iso3 : Cell),
        List.Sorted (keyLe fun r : UnescoRow => toLex (optIntKey r.year, r.site))
          (unesco_for_iso3 file iso3)) ∧
    (∀ (rows : List CityRaw) (iso3 : Cell),
        List.Sublist (cities_for_iso3 rows iso3)
          (rows.map fun r =>
            ({ iso3 := upperCell r.iso3, city := r.city, admin := r.admin,
               is_capital := r.is_capital, population := parseIntOpt r.population,
               year := parseIntOpt r.year, lat := parseIntOpt r.lat,
               lon := parseIntOpt r.lon } : CityRow))) ∧
    (∀ (cur hist : Option (List LeaderRow)) (iso3 : Cell),
        List.Sublist (leaders_for_iso3 cur hist iso3).1 (load_leaders cur) ∧
        List.Sublist (leaders_for_iso3 cur hist iso3).2 (load_leaders hist)) := by
  refine ⟨?_, ?_, ?_, ?_⟩
  · intro file iso3
    exact sorted_sortByKey _ _
  · intro file iso3
    exact sorted_sortByKey _ _
  · intro rows iso3
    exact List.filter_sublist _
  · intro cur hist iso3
    exact ⟨List.filter_sublist _, List.filter_sublist _⟩

/-- Witness for C7's amended theorem on concrete PRT fixtures. -/
theorem c7_accessor_sorting_amended_witness :
    List.Sorted (keyLe fun r : WbRow => optIntKey r.year)
      (wb_series_for_country (some c7wb) (str2cell "PRT")) ∧
    List.Sorted (keyLe fun r : UnescoRow => toLex (optIntKey r.year, r.site))
      (unesco_for_iso3 (some c7unesco) (str2cell "PRT")) ∧
    List.Sublist (cities_for_iso3 c7rows (str2cell "PRT"))
      (c7rows.map fun r =>
        ({ iso3 := upperCell r.iso3, city := r.city, admin := r.admin,
           is_capital := r.is_capital, population := parseIntOpt r.population,
           year := parseIntOpt r.year, lat := parseIntOpt r.lat,
           lon := parseIntOpt r.lon } : CityRow)) :=
  ⟨c7_accessor_sorting_amended.1 (some c7wb) (str2cell "PRT"),
   c7_accessor_sorting_amended.2.1 (some c7unesco) (str2cell "PRT"),
   c7_accessor_sorting_amended.2.2.1 c7rows (str2cell "PRT")⟩

/-! ## C10 — theorem -/

/-- C10: `_read_container` always returns exactly one non-`None` component
(the XLSX bytes or the CSV bytes), and it raises precisely when the blob is
a well-formed zip archive containing no `xl/` entry, no
`[Content_Types].xml`, no `.xlsx`/`.xls` member and no `.csv` member. -/
theorem c10_read_container_exactly_one :
    (∀ (zipOpen : List Nat → Option (List ZEntry)) (blob : List Nat)
        (p : Option (List Nat) × Option (List Nat)),
        read_container zipOpen blob = .ok p →
        ((p.1.isSome = true ∧ p.2 = none) ∨ (p.1 = none ∧ p.2.isSome = true))) ∧
    (∀ (zipOpen : List Nat → Option (List ZEntry)) (blob : List Nat),
        read_container zipOpen blob = .error () ↔
          ∃ entries, zipOpen blob = some entries ∧
            (∀ e ∈ entries,
              (cellStartsWith e.name (str2cell "xl/") ||
                e.name == str2cell "[Content_Types].xml") = false) ∧
            (∀ e ∈ entries,
              (cellEndsWith (lowerCell e.name) (str2cell ".xlsx") ||
                cellEndsWith (lowerCell e.name) (str2cell ".xls")) = false) ∧
            (∀ e ∈ entries, cellEndsWith (lowerCell e.name) (str2cell ".csv") = false)) := by
  constructor
  · intro zipOpen blob p hok
    cases hz : zipOpen blob with
    | some entries =>
      simp only [read_container, hz] at hok
      split at hok
      · cases hok
        simp
      · split at hok
        · cases hok
          simp
        · split at hok
          · cases hok
            simp
          · cases hok
    | none =>
      simp only [read_container, hz] at hok
      split at hok
      · cases hok
        simp
      · cases hok
        simp
  · intro zipOpen blob
    constructor
    · intro herr
      cases hz : zipOpen blob with
      | some entries =>
        simp only [read_container, hz] at herr
        split at herr
        · cases herr
        · split at herr
          · cases herr
          · split at herr
            · cases herr
            · refine ⟨entries, rfl, ?_, ?_, ?_⟩
              · intro e he
                apply Bool.eq_false_iff.mpr
                intro htrue
                have hany : ¬((entries.any fun e =>
                    cellStartsWith e.name (str2cell "xl/") ||
                      e.name == str2cell "[Content_Types].xml") = true) := by assumption
                exact hany (List.any_eq_true.mpr ⟨e, he, htrue⟩)
              · intro e he
                have hfind : (entries.find? fun e =>
                    cellEndsWith (lowerCell e.name) (str2cell ".xlsx") ||
                      cellEndsWith (lowerCell e.name) (str2cell ".xls")) = none := by
                  assumption
                exact Bool.eq_false_iff.mpr (List.find?_eq_none.mp hfind e he)
              · intro e he
                have hfind : (entries.find? fun e =>
                    cellEndsWith (lowerCell e.name) (str2cell ".csv")) = none := by
                  assumption
                exact Bool.eq_false_iff.mpr (List.find?_eq_none.mp hfind e he)
      | none =>
        simp only [read_container, hz] at herr
        split at herr
        · cases herr
        · cases herr
    · rintro ⟨entries, hz, h1, h2, h3⟩
      simp only [read_container, hz]
      rw [if_neg (by
        intro hany
        obtain ⟨e, he, htrue⟩ := List.any_eq_true.mp hany
        rw [h1 e he] at htrue
        exact Bool.false_ne_true htrue)]
      rw [List.find?_eq_none.mpr (fun e he htrue => by
        rw [h2 e he] at htrue
        exact Bool.false_ne_true htrue)]
      rw [List.find?_eq_none.mpr (fun e he htrue => by
        rw [h3 e he] at htrue
        exact Bool.false_ne_true htrue)]

/-- Witness for C10: a zip with only a `.csv` member yields the CSV half, a
zip with only a text member raises, and the conclusions of the theorem hold
there. -/
theorem c10_read_container_exactly_one_witness :
    (((none : Option (List Nat)), (some [1, 2] : Option (List Nat))).1 = none ∧
      ((none : Option (List Nat)), (some [1, 2] : Option (List Nat))).2.isSome = true) ∨
    ((((none : Option (List Nat)), (some [1, 2] : Option (List Nat))).1.isSome = true) ∧
      ((none : Option (List Nat)), (some [1, 2] : Option (List Nat))).2 = none) :=
  ((c10_read_container_exactly_one.1
      (fun _ => some [⟨str2cell "data/file.CSV", [1, 2]⟩]) [9, 9]
      (none, some [1, 2]) (by decide)).elim Or.inr Or.inl)
